import Mathlib

/-!
Verification development for the Prospector game server.

This file gives a shallow embedding of the game engine in
`prospector/server/game.py` (class `ProspectorGame`) and the player record in
`prospector/server/player.py` (class `Player`), and proves properties of the
engine operations: `add_player`, `remove_player`, `place_fence`,
`check_claimed_land`, `get_current_player`, `next_turn`, `check_inactivity`,
`end_game`, and the `to_dict` / `from_dict` serialization pair.

Modelling conventions:
  - Python wall-clock time (`time.time()`) is passed explicitly as a `now : Int`
    argument to every operation that reads the clock.
  - Python lists become Lean `List`s; `xs[i]` reads become `getD` accesses and
    `xs[i] = v` writes become `List.set` (the engine's own range checks keep all
    accesses in bounds on well-formed states).
  - The random shuffle in `_distribute_land_types` is externalized: the
    constructor takes the already-shuffled flat list of land types as an
    explicit parameter.
  - Mutation of a shared `Player` object aliased from the roster becomes an
    update of the roster list at the corresponding index.
-/

/-- Modelled from the spec: the module `prospector/common/constants.py` is not
among the provided sources; the spec fixes a small closed set of land types,
each mapped to a fixed point value. The exact numeric values are irrelevant to
every property proved below. -/
def LAND_TYPE_REGULAR : String := "regular"

/-- Modelled from the spec: see `LAND_TYPE_REGULAR`. -/
def LAND_TYPE_COPPER : String := "copper"

/-- Modelled from the spec: see `LAND_TYPE_REGULAR`. -/
def LAND_TYPE_SILVER : String := "silver"

/-- Modelled from the spec: see `LAND_TYPE_REGULAR`. -/
def LAND_TYPE_GOLD : String := "gold"

/-- Modelled from the spec: fixed point value of regular land. -/
def LAND_VALUE_REGULAR : Int := 1

/-- Modelled from the spec: fixed point value of copper land. -/
def LAND_VALUE_COPPER : Int := 2

/-- Modelled from the spec: fixed point value of silver land. -/
def LAND_VALUE_SILVER : Int := 5

/-- Modelled from the spec: fixed point value of gold land. -/
def LAND_VALUE_GOLD : Int := 10

/-- Modelled from the spec: orientation token for horizontal fences. -/
def ORIENTATION_HORIZONTAL : String := "horizontal"

/-- Modelled from the spec: orientation token for vertical fences. -/
def ORIENTATION_VERTICAL : String := "vertical"

/-- Modelled from the spec: the constants module is not among the provided
sources; the roster hard cap `MAX_PLAYERS`. Every property below holds for any
positive value; we fix one representative value. -/
def MAX_PLAYERS : Nat := 4

/-- Game lifecycle state (`GAME_STATE_WAITING` / `GAME_STATE_PLAYING` /
`GAME_STATE_FINISHED` in the source). -/
inductive GameState where
  | waiting
  | playing
  | finished
deriving DecidableEq, Repr

/-- Embedding of `prospector/server/player.py`, class `Player`. The `id` is
taken as a parameter (in Python a UUID is drawn when absent). -/
structure Player where
  name : String
  id : String
  score : Int
  wins : Nat
  losses : Nat
  draws : Nat
  last_active : Int
  games_played : Nat
deriving DecidableEq, Repr

/-- `Player.__init__(name, player_id)`: fresh player with zeroed counters. -/
def Player.make (name : String) (player_id : String) (now : Int) : Player :=
  { name := name, id := player_id, score := 0, wins := 0, losses := 0,
    draws := 0, last_active := now, games_played := 0 }

/-- `Player.update_activity`. -/
def Player.update_activity (p : Player) (now : Int) : Player :=
  { p with last_active := now }

/-- `Player.win_game`. -/
def Player.win_game (p : Player) : Player :=
  { p with wins := p.wins + 1, games_played := p.games_played + 1 }

/-- `Player.lose_game`. -/
def Player.lose_game (p : Player) : Player :=
  { p with losses := p.losses + 1, games_played := p.games_played + 1 }

/-- `Player.draw_game`. -/
def Player.draw_game (p : Player) : Player :=
  { p with draws := p.draws + 1, games_played := p.games_played + 1 }

/-- `Player.add_score`. -/
def Player.add_score (p : Player) (points : Int) : Player :=
  { p with score := p.score + points }

/-- `LandCell.get_value_for_type`: the `value_map` dictionary lookup with
default `LAND_VALUE_REGULAR`. -/
def get_value_for_type (land_type : String) : Int :=
  if land_type = LAND_TYPE_REGULAR then LAND_VALUE_REGULAR
  else if land_type = LAND_TYPE_COPPER then LAND_VALUE_COPPER
  else if land_type = LAND_TYPE_SILVER then LAND_VALUE_SILVER
  else if land_type = LAND_TYPE_GOLD then LAND_VALUE_GOLD
  else LAND_VALUE_REGULAR

/-- Embedding of class `LandCell`: type, point value, and owner
(a player index, or `none` while unclaimed). -/
structure LandCell where
  type : String
  value : Int
  owner : Option Nat
deriving DecidableEq, Repr

/-- `LandCell.__init__(land_type)`. -/
def LandCell.make (land_type : String) : LandCell :=
  { type := land_type, value := get_value_for_type land_type, owner := none }

instance : Inhabited LandCell := ⟨LandCell.make LAND_TYPE_REGULAR⟩

/-- A game-history entry (the dictionaries appended to `game_history`). -/
inductive HistEntry where
  | fence_placed (player_id : String) (row col : Int) (orientation : String) (time : Int)
  | land_claimed (player_id : String) (lands : List (Nat × Nat)) (score_gained : Int) (time : Int)
  | player_left (player_id : String) (time : Int)
  | game_over (time : Int)
deriving DecidableEq, Repr

/-- Embedding of class `ProspectorGame` (its mutable attributes). The
`land_config` dictionary is not carried: it is consumed only by
`_distribute_land_types`, whose shuffled output is externalized. -/
structure ProspectorGame where
  id : String
  grid_size : Nat
  max_players : Nat
  players : List Player
  current_player_idx : Nat
  state : GameState
  start_time : Option Int
  turn_timeout : Int
  turn_start_time : Option Int
  game_history : List HistEntry
  horizontal_fences : List (List Bool)
  vertical_fences : List (List Bool)
  land_cells : List (List LandCell)
  unclaimed_lands : Int
deriving DecidableEq, Repr

/-- Write `m[r][c] = true` on a boolean lattice (Python list assignment). -/
def setFence (m : List (List Bool)) (r c : Nat) : List (List Bool) :=
  m.set r ((m.getD r []).set c true)

/-- Write `m[r][c] = cell` on the land grid (Python list assignment). -/
def setCell (m : List (List LandCell)) (r c : Nat) (cell : LandCell) :
    List (List LandCell) :=
  m.set r ((m.getD r []).set c cell)

/-- Read `horizontal_fences[r][c]`. -/
def ProspectorGame.hfence (g : ProspectorGame) (r c : Nat) : Bool :=
  (g.horizontal_fences.getD r []).getD c false

/-- Read `vertical_fences[r][c]`. -/
def ProspectorGame.vfence (g : ProspectorGame) (r c : Nat) : Bool :=
  (g.vertical_fences.getD r []).getD c false

/-- Read `land_cells[r][c]`. -/
def ProspectorGame.cellAt (g : ProspectorGame) (r c : Nat) : LandCell :=
  (g.land_cells.getD r []).getD c default

/-- `_distribute_land_types`, with the shuffled flat list of land types given
as the parameter `shuffled` (in Python it is built from the percentage
configuration, padded with `LAND_TYPE_REGULAR`, and randomly shuffled; its
length is always at least `grid_size ** 2`, so the `getD` default is only a
totalization device). Cell `(row, col)` receives `shuffled[row * grid_size + col]`. -/
def distribute_land_types (grid_size : Nat) (shuffled : List String) :
    List (List LandCell) :=
  (List.range grid_size).map (fun row =>
    (List.range grid_size).map (fun col =>
      LandCell.make (shuffled.getD (row * grid_size + col) LAND_TYPE_REGULAR)))

/-- `ProspectorGame.__init__`: the constructor. `game_id` is taken as given
(in Python a UUID is drawn when absent), and `shuffled` stands for the shuffled
land-type list consumed by `_distribute_land_types`. -/
def ProspectorGame.init (grid_size : Nat) (max_players : Nat) (game_id : String)
    (turn_timeout : Int) (shuffled : List String) : ProspectorGame :=
  { id := game_id
    grid_size := grid_size
    max_players := min max_players MAX_PLAYERS
    players := []
    current_player_idx := 0
    state := GameState.waiting
    start_time := none
    turn_timeout := turn_timeout
    turn_start_time := none
    game_history := []
    horizontal_fences := List.replicate (grid_size + 1) (List.replicate grid_size false)
    vertical_fences := List.replicate grid_size (List.replicate (grid_size + 1) false)
    land_cells := distribute_land_types grid_size shuffled
    unclaimed_lands := (grid_size * grid_size : Nat) }

/-- `ProspectorGame.get_current_player`. -/
def ProspectorGame.get_current_player (g : ProspectorGame) : Option Player :=
  if g.players.isEmpty || decide (g.players.length ≤ g.current_player_idx) then none
  else g.players.get? g.current_player_idx

/-- `ProspectorGame.next_turn`. -/
def ProspectorGame.next_turn (g : ProspectorGame) (now : Int) : ProspectorGame :=
  if g.players.isEmpty then g
  else { g with current_player_idx := (g.current_player_idx + 1) % g.players.length,
                turn_start_time := some now }

/-- `ProspectorGame.add_player`. -/
def ProspectorGame.add_player (g : ProspectorGame) (now : Int) (player : Player) :
    ProspectorGame × Bool :=
  if g.players.length < g.max_players then
    let g1 := { g with players := g.players ++ [player] }
    if 2 ≤ g1.players.length then
      ({ g1 with state := GameState.playing, start_time := some now,
                 turn_start_time := some now }, true)
    else (g1, true)
  else (g, false)

/-- The stat update inside `remove_player` when the game is `playing`: every
player other than the departing index `i` is credited a win, and the player at
index `i` a loss (in Python these mutate the shared `Player` objects in
`self.players` before `pop(i)` runs). -/
def remove_player_stats (ps : List Player) (i : Nat) : List Player :=
  ps.enum.map (fun jp => if jp.1 = i then jp.2.lose_game else jp.2.win_game)

/-- `ProspectorGame.remove_player`. The Python loop removes the first roster
entry whose id matches. -/
def ProspectorGame.remove_player (g : ProspectorGame) (now : Int) (player_id : String) :
    ProspectorGame × Bool :=
  match g.players.findIdx? (fun p => p.id = player_id) with
  | none => (g, false)
  | some i =>
    let g1 :=
      if g.state = GameState.playing then
        { g with players := remove_player_stats g.players i,
                 state := GameState.finished,
                 game_history := g.game_history ++ [HistEntry.player_left player_id now] }
      else g
    let g2 := { g1 with players := g1.players.eraseIdx i }
    let g3 :=
      if g2.players.length < 2 ∧ g2.state = GameState.playing then
        { g2 with state := GameState.finished }
      else g2
    (g3, true)

/-- `ProspectorGame.check_claimed_land`: scan every unclaimed cell and collect
those whose four bounding fences are all present. -/
def ProspectorGame.check_claimed_land (g : ProspectorGame) : List (Nat × Nat) :=
  (List.range g.grid_size).flatMap (fun row =>
    (List.range g.grid_size).filterMap (fun col =>
      if (g.cellAt row col).owner = none ∧
         g.hfence row col = true ∧ g.hfence (row + 1) col = true ∧
         g.vfence row col = true ∧ g.vfence row (col + 1) = true
      then some (row, col) else none))

/-- The turn-clock expiry test at the top of `place_fence`:
`self.turn_timeout > 0 and self.turn_start_time` and then
`elapsed > self.turn_timeout`. -/
def ProspectorGame.turn_expired (g : ProspectorGame) (now : Int) : Bool :=
  decide (0 < g.turn_timeout) &&
    (match g.turn_start_time with
     | some t => decide (g.turn_timeout < now - t)
     | none => false)

/-- The winner scan in `end_game`: running maximum score (initialized to `-1`)
and the list of indices achieving it. -/
def computeWinners (ps : List Player) : Int × List Nat :=
  ps.enum.foldl
    (fun acc ip =>
      if acc.1 < ip.2.score then (ip.2.score, [ip.1])
      else if ip.2.score = acc.1 then (acc.1, acc.2 ++ [ip.1])
      else acc)
    (-1, [])

/-- `ProspectorGame.end_game`. -/
def ProspectorGame.end_game (g : ProspectorGame) (now : Int) : ProspectorGame :=
  if g.state = GameState.finished then g
  else
    let g1 := { g with state := GameState.finished,
                       game_history := g.game_history ++ [HistEntry.game_over now] }
    if g1.players.length < 2 then
      match g1.players with
      | [] => g1
      | p :: rest => { g1 with players := p.win_game :: rest }
    else
      match (computeWinners g1.players).2 with
      | [w] =>
        let ps := g1.players.enum.map
          (fun ip => if ip.1 = w then ip.2.win_game else ip.2.lose_game)
        { g1 with players := ps }
      | ws =>
        let ps := g1.players.enum.map
          (fun ip => if ip.1 ∈ ws then ip.2.draw_game else ip.2.lose_game)
        { g1 with players := ps }

/-- The claiming loop inside `place_fence`: walk the claimed coordinates,
setting each cell's owner to `idx` and accumulating the claimed value. -/
def claim_lands (claimed : List (Nat × Nat)) (cells : List (List LandCell))
    (idx : Nat) : List (List LandCell) × Int :=
  claimed.foldl
    (fun acc rc =>
      let cell := (acc.1.getD rc.1 []).getD rc.2 default
      (setCell acc.1 rc.1 rc.2 { cell with owner := some idx }, acc.2 + cell.value))
    (cells, 0)

/-- The tail of `place_fence` after the fence bit has been set (its argument
`g` already carries the new fence): activity update, `fence_placed` history
entry, claim detection, and either turn advance or scoring. -/
def after_place (g : ProspectorGame) (now : Int) (player_id : String)
    (row col : Int) (orientation : String) (cur : Player) :
    ProspectorGame × Bool × List (Nat × Nat) :=
  let cur1 := cur.update_activity now
  let g2 := { g with players := g.players.set g.current_player_idx cur1,
                     game_history := g.game_history ++
                       [HistEntry.fence_placed player_id row col orientation now] }
  let claimed := g2.check_claimed_land
  if claimed.isEmpty then
    let g3 := g2.next_turn now
    ({ g3 with turn_start_time := some now }, true, claimed)
  else
    let res := claim_lands claimed g2.land_cells g2.current_player_idx
    let g3 := { g2 with
      land_cells := res.1,
      players := g2.players.set g2.current_player_idx (cur1.add_score res.2),
      unclaimed_lands := g2.unclaimed_lands - claimed.length,
      game_history := g2.game_history ++
        [HistEntry.land_claimed player_id claimed res.2 now] }
    let g4 := if g3.unclaimed_lands = 0 then g3.end_game now else g3
    ({ g4 with turn_start_time := some now }, true, claimed)

/-- `ProspectorGame.place_fence`. Coordinates are `Int` because Python accepts
(and range-rejects) negative inputs; after the range check they are converted
with `toNat` for indexing. -/
def ProspectorGame.place_fence (g : ProspectorGame) (now : Int) (player_id : String)
    (row col : Int) (orientation : String) : ProspectorGame × Bool × List (Nat × Nat) :=
  if g.state ≠ GameState.playing then (g, false, [])
  else
    match g.get_current_player with
    | none => (g, false, [])
    | some cur =>
      if cur.id ≠ player_id then (g, false, [])
      else if g.turn_expired now then (g.next_turn now, false, [])
      else if orientation = ORIENTATION_HORIZONTAL then
        if ¬ (0 ≤ row ∧ row ≤ (g.grid_size : Int) ∧ 0 ≤ col ∧ col < (g.grid_size : Int)) then
          (g, false, [])
        else if g.hfence row.toNat col.toNat then (g, false, [])
        else after_place
          { g with horizontal_fences := setFence g.horizontal_fences row.toNat col.toNat }
          now player_id row col orientation cur
      else if orientation = ORIENTATION_VERTICAL then
        if ¬ (0 ≤ row ∧ row < (g.grid_size : Int) ∧ 0 ≤ col ∧ col ≤ (g.grid_size : Int)) then
          (g, false, [])
        else if g.vfence row.toNat col.toNat then (g, false, [])
        else after_place
          { g with vertical_fences := setFence g.vertical_fences row.toNat col.toNat }
          now player_id row col orientation cur
      else (g, false, [])

/-- `ProspectorGame.check_inactivity`. -/
def ProspectorGame.check_inactivity (g : ProspectorGame) (now : Int) :
    ProspectorGame × Bool :=
  match g.turn_start_time with
  | none => (g, false)
  | some t =>
    if g.state ≠ GameState.playing then (g, false)
    else
      match g.get_current_player with
      | none => (g, false)
      | some cur =>
        if g.turn_timeout < now - t then ((g.remove_player now cur.id).1, true)
        else (g, false)

/-- The dictionary produced by `LandCell.to_dict`. -/
structure LandCellDict where
  type : String
  value : Int
  owner : Option Nat
deriving DecidableEq, Repr

instance : Inhabited LandCellDict := ⟨⟨LAND_TYPE_REGULAR, LAND_VALUE_REGULAR, none⟩⟩

/-- `LandCell.to_dict`. -/
def LandCell.to_dict (c : LandCell) : LandCellDict :=
  { type := c.type, value := c.value, owner := c.owner }

/-- `LandCell.from_dict`: construct from the type, then overwrite owner and
value from the dictionary. -/
def LandCell.from_dict (d : LandCellDict) : LandCell :=
  let cell := LandCell.make d.type
  { cell with owner := d.owner, value := d.value }

/-- The nested `stats` dictionary of `Player.to_dict`. -/
structure PlayerStats where
  wins : Nat
  losses : Nat
  draws : Nat
  games_played : Nat
deriving DecidableEq, Repr

/-- The dictionary produced by `Player.to_dict`. -/
structure PlayerDict where
  id : String
  name : String
  score : Int
  stats : PlayerStats
  last_active : Int
deriving DecidableEq, Repr

/-- `Player.to_dict`. -/
def Player.to_dict (p : Player) : PlayerDict :=
  { id := p.id, name := p.name, score := p.score,
    stats := { wins := p.wins, losses := p.losses, draws := p.draws,
               games_played := p.games_played },
    last_active := p.last_active }

/-- `Player.from_dict`. -/
def Player.from_dict (d : PlayerDict) : Player :=
  { name := d.name, id := d.id, score := d.score,
    wins := d.stats.wins, losses := d.stats.losses, draws := d.stats.draws,
    last_active := d.last_active, games_played := d.stats.games_played }

/-- The dictionary produced by `ProspectorGame.to_dict`. -/
structure GameDict where
  id : String
  grid_size : Nat
  max_players : Nat
  state : GameState
  current_player_id : Option String
  players : List PlayerDict
  horizontal_fences : List (List Bool)
  vertical_fences : List (List Bool)
  land_cells : List (List LandCellDict)
  unclaimed_lands : Int
  turn_timeout : Int
  turn_start_time : Option Int
  game_time : Int
deriving DecidableEq, Repr

/-- `ProspectorGame.to_dict`. -/
def ProspectorGame.to_dict (g : ProspectorGame) (now : Int) : GameDict :=
  { id := g.id, grid_size := g.grid_size, max_players := g.max_players,
    state := g.state,
    current_player_id := g.get_current_player.map (fun p => p.id),
    players := g.players.map Player.to_dict,
    horizontal_fences := g.horizontal_fences,
    vertical_fences := g.vertical_fences,
    land_cells := g.land_cells.map (fun row => row.map LandCell.to_dict),
    unclaimed_lands := g.unclaimed_lands,
    turn_timeout := g.turn_timeout,
    turn_start_time := g.turn_start_time,
    game_time := match g.start_time with | some st => now - st | none => 0 }

/-- The inner column loop of `from_dict`'s land-cell restoration, acting on one
row of the constructor-built grid. -/
def overwriteRow (base : List LandCell) (dataRow : List LandCellDict) (gs : Nat) :
    List LandCell :=
  (List.range (min dataRow.length gs)).foldl
    (fun acc col => acc.set col (LandCell.from_dict (dataRow.getD col default))) base

/-- The row loop of `from_dict`'s land-cell restoration (each outer iteration
touches only its own row, so it is modelled as a per-row overwrite). -/
def overwriteCells (base : List (List LandCell)) (data : List (List LandCellDict))
    (gs : Nat) : List (List LandCell) :=
  (List.range (min data.length gs)).foldl
    (fun acc row => acc.set row (overwriteRow (acc.getD row []) (data.getD row []) gs)) base

/-- `ProspectorGame.from_dict`. As in the constructor, `shuffled` stands for
the shuffled land-type list the constructor consumes (its output is then
overwritten from the dictionary), and `now` for `time.time()`. -/
def ProspectorGame.from_dict (d : GameDict) (now : Int) (shuffled : List String) :
    ProspectorGame :=
  let game0 := ProspectorGame.init d.grid_size d.max_players d.id d.turn_timeout shuffled
  let players := d.players.map Player.from_dict
  let idx : Nat :=
    match d.current_player_id with
    | none => game0.current_player_idx
    | some s =>
      if s = "" then game0.current_player_idx
      else
        match players.findIdx? (fun p => p.id = s) with
        | some i => i
        | none => game0.current_player_idx
  { game0 with
    state := d.state,
    unclaimed_lands := d.unclaimed_lands,
    turn_start_time := d.turn_start_time,
    start_time := if d.state ≠ GameState.waiting then some (now - d.game_time) else none,
    players := players,
    current_player_idx := idx,
    horizontal_fences := d.horizontal_fences,
    vertical_fences := d.vertical_fences,
    land_cells := if d.land_cells.isEmpty then game0.land_cells
                  else overwriteCells game0.land_cells d.land_cells d.grid_size }

/-- Shared example fixtures: a 1×1 game between players with ids "a" and "b",
with the four boundary fences of the single cell placed in alternating turns;
the fourth placement claims the cell for player index 1 and ends the game, and
removing player "a" afterwards leaves a one-player roster. -/
def exPA : Player := Player.make "Alice" "a" 0

/-- Second example player. -/
def exPB : Player := Player.make "Bob" "b" 0

/-- Fresh 1×1 example game. -/
def exG0 : ProspectorGame := ProspectorGame.init 1 2 "G" 0 []

/-- Example game after both players joined (state `playing`). -/
def exG2 : ProspectorGame := ((exG0.add_player 0 exPA).1.add_player 0 exPB).1

/-- After "a" places the top fence of cell (0,0). -/
def exG3 : ProspectorGame := (exG2.place_fence 0 "a" 0 0 ORIENTATION_HORIZONTAL).1

/-- After "b" places the bottom fence of cell (0,0). -/
def exG4 : ProspectorGame := (exG3.place_fence 0 "b" 1 0 ORIENTATION_HORIZONTAL).1

/-- After "a" places the left fence of cell (0,0). -/
def exG5 : ProspectorGame := (exG4.place_fence 0 "a" 0 0 ORIENTATION_VERTICAL).1

/-- After "b" places the right fence of cell (0,0), claiming it. -/
def exG6 : ProspectorGame := (exG5.place_fence 0 "b" 0 1 ORIENTATION_VERTICAL).1

/-- After "a" is removed from the finished game. -/
def exG7 : ProspectorGame := (exG6.remove_player 0 "a").1

/-- A 1x1 game where two joining players carry the same explicit id "x"
(`Player.__init__` keeps any truthy `player_id` unchanged). -/
def exGD0 : ProspectorGame := ProspectorGame.init 1 2 "D" 0 []

/-- After the first same-id player joins. -/
def exGD1 : ProspectorGame := (exGD0.add_player 0 (Player.make "A" "x" 0)).1

/-- After the second same-id player joins; the game starts. -/
def exGD2 : ProspectorGame := (exGD1.add_player 0 (Player.make "B" "x" 0)).1

/-- After the current player places one fence: the turn index moves to 1,
where the roster entry again has id "x". -/
def exGD3 : ProspectorGame := (exGD2.place_fence 0 "x" 0 0 ORIENTATION_HORIZONTAL).1

/-- Serialized record of a player with id "q". -/
def exPDq : PlayerDict :=
  { id := "q", name := "Q", score := 0, stats := ⟨0, 0, 0, 0⟩, last_active := 0 }

/-- Serialized record of a player whose stored id is the empty string
(`Player.from_dict` copies the `id` field verbatim). -/
def exPDe : PlayerDict :=
  { id := "", name := "E", score := 0, stats := ⟨0, 0, 0, 0⟩, last_active := 0 }

/-- A persisted 1x1 game whose second player has the empty id. -/
def exDE : GameDict :=
  { id := "E", grid_size := 1, max_players := 2, state := GameState.playing,
    current_player_id := some "q", players := [exPDq, exPDe],
    horizontal_fences := List.replicate 2 (List.replicate 1 false),
    vertical_fences := List.replicate 1 (List.replicate 2 false),
    land_cells := [[⟨LAND_TYPE_REGULAR, LAND_VALUE_REGULAR, none⟩]],
    unclaimed_lands := 1,
    turn_timeout := 0, turn_start_time := some 0, game_time := 0 }

/-- The game restored from that record: playing, roster ids ["q", ""],
turn index 0. -/
def exGE0 : ProspectorGame := ProspectorGame.from_dict exDE 0 []

/-- After "q" places one fence: the turn index moves to 1, where the roster
entry has the empty id. -/
def exGE1 : ProspectorGame := (exGE0.place_fence 0 "q" 0 0 ORIENTATION_HORIZONTAL).1

/-- Well-formedness of the fence lattices as allocated by the constructor:
`(grid_size + 1) x grid_size` horizontal entries and
`grid_size x (grid_size + 1)` vertical entries. -/
def fencesWF (g : ProspectorGame) : Prop :=
  g.horizontal_fences.length = g.grid_size + 1 ∧
  (∀ lane ∈ g.horizontal_fences, lane.length = g.grid_size) ∧
  g.vertical_fences.length = g.grid_size ∧
  (∀ lane ∈ g.vertical_fences, lane.length = g.grid_size + 1)

/-- Read `m[r][c]` on a raw cell matrix (`ProspectorGame.cellAt` is this applied
to the game's `land_cells`). -/
def cellOf (m : List (List LandCell)) (r c : Nat) : LandCell :=
  (m.getD r []).getD c default

instance : Inhabited Player := ⟨Player.make "" "" 0⟩

/-- Claim-side measure: the summed value of the cells whose owner field
designates player index `i`. -/
def ProspectorGame.ownedValue (g : ProspectorGame) (i : Nat) : Int :=
  ∑ rc ∈ Finset.range g.grid_size ×ˢ Finset.range g.grid_size,
    (if (g.cellAt rc.1 rc.2).owner = some i then (g.cellAt rc.1 rc.2).value else 0)

/-- Claim-side measure: the summed value of the unowned cells. -/
def ProspectorGame.unownedValue (g : ProspectorGame) : Int :=
  ∑ rc ∈ Finset.range g.grid_size ×ˢ Finset.range g.grid_size,
    (if (g.cellAt rc.1 rc.2).owner = none then (g.cellAt rc.1 rc.2).value else 0)

/-- Claim-side measure: the total land value of the grid. -/
def ProspectorGame.totalValue (g : ProspectorGame) : Int :=
  ∑ rc ∈ Finset.range g.grid_size ×ˢ Finset.range g.grid_size,
    (g.cellAt rc.1 rc.2).value

/-- Claim-side measure: the sum of all players' scores. -/
def ProspectorGame.scoreSum (g : ProspectorGame) : Int :=
  (g.players.map (fun p => p.score)).sum

/-- The score invariant of the spec: each player's score equals the summed
value of the cells designating their index, and all scores plus the unowned
value add up to the grid's total land value. -/
def scoreInv (g : ProspectorGame) : Prop :=
  (∀ ip ∈ g.players.enum, ip.2.score = g.ownedValue ip.1) ∧
  g.scoreSum + g.unownedValue = g.totalValue

/-- Engine states reachable from a fresh game through the engine operations,
with joining players entering as fresh `Player.make` records (as the server
constructs them on join). -/
inductive Reachable : ProspectorGame → Prop where
  | init (gs mp : Nat) (gid : String) (tmo : Int) (sh : List String) :
      Reachable (ProspectorGame.init gs mp gid tmo sh)
  | add {g : ProspectorGame} (now : Int) (nm pid : String) (now2 : Int) :
      Reachable g → Reachable (g.add_player now (Player.make nm pid now2)).1
  | place {g : ProspectorGame} (now : Int) (pid : String) (row col : Int) (o : String) :
      Reachable g → Reachable (g.place_fence now pid row col o).1
  | remove {g : ProspectorGame} (now : Int) (pid : String) :
      Reachable g → Reachable (g.remove_player now pid).1
  | inact {g : ProspectorGame} (now : Int) :
      Reachable g → Reachable (g.check_inactivity now).1
  | endgame {g : ProspectorGame} (now : Int) :
      Reachable g → Reachable (g.end_game now)

/-- Reachability through the operations that never remove a player:
construction, joins of fresh players, fence placements, and game end. -/
inductive ReachableNR : ProspectorGame → Prop where
  | init (gs mp : Nat) (gid : String) (tmo : Int) (sh : List String) :
      ReachableNR (ProspectorGame.init gs mp gid tmo sh)
  | add {g : ProspectorGame} (now : Int) (nm pid : String) (now2 : Int) :
      ReachableNR g → ReachableNR (g.add_player now (Player.make nm pid now2)).1
  | place {g : ProspectorGame} (now : Int) (pid : String) (row col : Int) (o : String) :
      ReachableNR g → ReachableNR (g.place_fence now pid row col o).1
  | endgame {g : ProspectorGame} (now : Int) :
      ReachableNR g → ReachableNR (g.end_game now)

/-- The auxiliary invariant carried through the no-removal reachability
induction: well-formed cell-grid dimensions, owner indices in roster range,
and the per-player score identity. -/
def InvParts (g : ProspectorGame) : Prop :=
  (g.land_cells.length = g.grid_size ∧ ∀ lane ∈ g.land_cells, lane.length = g.grid_size) ∧
  (∀ r c, r < g.grid_size → c < g.grid_size → ∀ j, (g.cellAt r c).owner = some j →
    j < g.players.length) ∧
  (∀ j p, g.players[j]? = some p → p.score = g.ownedValue j)

/-! ## Basic lemmas about the accessors and small operations -/

theorem get_current_player_of_lt (g : ProspectorGame)
    (h : g.current_player_idx < g.players.length) :
    g.get_current_player = some (g.players.get ⟨g.current_player_idx, h⟩) := by
  have hne : g.players ≠ [] :=
    List.ne_nil_of_length_pos (Nat.lt_of_le_of_lt (Nat.zero_le _) h)
  unfold ProspectorGame.get_current_player
  rw [if_neg]
  · exact List.get?_eq_get h
  · simp [List.isEmpty_iff, hne, Nat.not_le, h]

theorem get_current_player_eq_some {g : ProspectorGame} {p : Player}
    (h : g.get_current_player = some p) :
    g.players ≠ [] ∧ g.current_player_idx < g.players.length ∧
      g.players.get? g.current_player_idx = some p := by
  unfold ProspectorGame.get_current_player at h
  split at h
  · exact absurd h (by simp)
  · rename_i hcond
    rw [Bool.or_eq_true, not_or] at hcond
    obtain ⟨h1, h2⟩ := hcond
    simp only [decide_eq_true_eq, Nat.not_le] at h2
    exact ⟨by simpa [List.isEmpty_iff] using h1, h2, h⟩

theorem next_turn_frame (g : ProspectorGame) (now : Int) :
    (g.next_turn now).horizontal_fences = g.horizontal_fences ∧
    (g.next_turn now).vertical_fences = g.vertical_fences ∧
    (g.next_turn now).land_cells = g.land_cells ∧
    (g.next_turn now).players = g.players ∧
    (g.next_turn now).game_history = g.game_history ∧
    (g.next_turn now).unclaimed_lands = g.unclaimed_lands ∧
    (g.next_turn now).state = g.state ∧
    (g.next_turn now).grid_size = g.grid_size := by
  unfold ProspectorGame.next_turn
  split <;> simp

theorem next_turn_idx (g : ProspectorGame) (now : Int) (h : g.players ≠ []) :
    (g.next_turn now).current_player_idx = (g.current_player_idx + 1) % g.players.length ∧
    (g.next_turn now).turn_start_time = some now := by
  unfold ProspectorGame.next_turn
  rw [if_neg (by simpa [List.isEmpty_iff] using h)]
  exact ⟨rfl, rfl⟩

theorem after_place_ok (g : ProspectorGame) (now : Int) (pid : String)
    (row col : Int) (o : String) (cur : Player) :
    (after_place g now pid row col o cur).2.1 = true := by
  simp only [after_place]
  split <;> rfl

/-! ## C9: totality of `get_current_player` -/

/-- C9: `get_current_player` is total: it returns `none` whenever the roster is
empty or the current-turn index is at least the roster size, and otherwise
returns the player at the current-turn index, so an out-of-range index never
causes an out-of-bounds access through this accessor. -/
theorem get_current_player_total (g : ProspectorGame) :
    ((g.players = [] ∨ g.players.length ≤ g.current_player_idx) →
        g.get_current_player = none) ∧
    (∀ h : g.current_player_idx < g.players.length,
        g.get_current_player = some (g.players.get ⟨g.current_player_idx, h⟩)) := by
  constructor
  · intro h
    unfold ProspectorGame.get_current_player
    rw [if_pos]
    rcases h with h | h
    · simp [h]
    · simp [h]
  · intro h
    exact get_current_player_of_lt g h

/-- Witness for C9 at a concrete one-player game. -/
theorem get_current_player_total_witness :
    (((ProspectorGame.init 2 2 "G" 0 []).add_player 0 (Player.make "A" "a" 0)).1).get_current_player
      = some (Player.make "A" "a" 0) := by
  have h := (get_current_player_total
    (((ProspectorGame.init 2 2 "G" 0 []).add_player 0 (Player.make "A" "a" 0)).1)).2 (by decide)
  rw [h]
  decide

/-! ## C10: roster capacity is capped at `MAX_PLAYERS` -/

/-- C10: the constructor caps the effective capacity at
`min max_players MAX_PLAYERS`; for any game with that capacity, `add_player`
accepts and appends while the roster is below it, rejects once it is reached,
and never grows a roster beyond `MAX_PLAYERS`. -/
theorem add_player_capacity (m gs : Nat) (gid : String) (tmo : Int) (sh : List String)
    (g : ProspectorGame) (now : Int) (p : Player)
    (hcap : g.max_players = min m MAX_PLAYERS) :
    (ProspectorGame.init gs m gid tmo sh).max_players = min m MAX_PLAYERS ∧
    (g.players.length < min m MAX_PLAYERS →
      (g.add_player now p).2 = true ∧
      (g.add_player now p).1.players = g.players ++ [p]) ∧
    (min m MAX_PLAYERS ≤ g.players.length → g.add_player now p = (g, false)) ∧
    (g.players.length ≤ MAX_PLAYERS →
      (g.add_player now p).1.players.length ≤ MAX_PLAYERS) := by
  refine ⟨rfl, ?_, ?_, ?_⟩
  · intro hlen
    have hlt : g.players.length < g.max_players := by rw [hcap]; exact hlen
    unfold ProspectorGame.add_player
    rw [if_pos hlt]
    constructor
    · dsimp only
      split <;> rfl
    · dsimp only
      split <;> rfl
  · intro hge
    have hnlt : ¬ g.players.length < g.max_players := by rw [hcap]; omega
    unfold ProspectorGame.add_player
    rw [if_neg hnlt]
  · intro hle
    have hmin : min m MAX_PLAYERS ≤ MAX_PLAYERS := Nat.min_le_right m MAX_PLAYERS
    unfold ProspectorGame.add_player
    split
    · rename_i hlt
      dsimp only
      split <;> simp <;> omega
    · simpa using hle

/-- Witness for C10 with a requested maximum of 7 players, above the cap. -/
theorem add_player_capacity_witness :
    (ProspectorGame.init 2 7 "G" 0 []).max_players = min 7 MAX_PLAYERS ∧
    ((ProspectorGame.init 2 7 "G" 0 []).players.length < min 7 MAX_PLAYERS →
      ((ProspectorGame.init 2 7 "G" 0 []).add_player 0 (Player.make "A" "a" 0)).2 = true ∧
      ((ProspectorGame.init 2 7 "G" 0 []).add_player 0 (Player.make "A" "a" 0)).1.players =
        (ProspectorGame.init 2 7 "G" 0 []).players ++ [Player.make "A" "a" 0]) ∧
    (min 7 MAX_PLAYERS ≤ (ProspectorGame.init 2 7 "G" 0 []).players.length →
      (ProspectorGame.init 2 7 "G" 0 []).add_player 0 (Player.make "A" "a" 0) =
        (ProspectorGame.init 2 7 "G" 0 [], false)) ∧
    ((ProspectorGame.init 2 7 "G" 0 []).players.length ≤ MAX_PLAYERS →
      ((ProspectorGame.init 2 7 "G" 0 []).add_player 0 (Player.make "A" "a" 0)).1.players.length
        ≤ MAX_PLAYERS) :=
  add_player_capacity 7 2 "G" 0 [] (ProspectorGame.init 2 7 "G" 0 []) 0
    (Player.make "A" "a" 0) (by decide)

/-! ## C2: characterization of the Claim Detector -/

theorem mem_check_claimed_land (g : ProspectorGame) (r c : Nat) :
    (r, c) ∈ g.check_claimed_land ↔
      (r < g.grid_size ∧ c < g.grid_size ∧ (g.cellAt r c).owner = none ∧
       g.hfence r c = true ∧ g.hfence (r + 1) c = true ∧
       g.vfence r c = true ∧ g.vfence r (c + 1) = true) := by
  unfold ProspectorGame.check_claimed_land
  simp only [List.mem_flatMap, List.mem_filterMap, List.mem_range]
  constructor
  · rintro ⟨row, hrow, col, hcol, hif⟩
    split at hif
    · rename_i hP
      have hpc := Option.some.inj hif
      cases hpc
      exact ⟨hrow, hcol, hP.1, hP.2.1, hP.2.2.1, hP.2.2.2.1, hP.2.2.2.2⟩
    · exact absurd hif (by simp)
  · rintro ⟨hr, hc, h1, h2, h3, h4, h5⟩
    exact ⟨r, hr, c, hc, by rw [if_pos ⟨h1, h2, h3, h4, h5⟩]⟩

/-- C2: for every grid state and in-range coordinate, the Claim Detector's
result contains the coordinate iff the cell's owner is unset and all four
bounding fence entries are true; in particular the result never contains an
owned cell. -/
theorem check_claimed_land_spec (g : ProspectorGame) (r c : Nat)
    (hr : r < g.grid_size) (hc : c < g.grid_size) :
    ((r, c) ∈ g.check_claimed_land ↔
      ((g.cellAt r c).owner = none ∧
       g.hfence r c = true ∧ g.hfence (r + 1) c = true ∧
       g.vfence r c = true ∧ g.vfence r (c + 1) = true)) ∧
    (∀ p ∈ g.check_claimed_land, (g.cellAt p.1 p.2).owner = none) := by
  constructor
  · rw [mem_check_claimed_land]
    constructor
    · rintro ⟨_, _, h⟩
      exact h
    · intro h
      exact ⟨hr, hc, h⟩
  · intro p hp
    rcases p with ⟨pr, pc⟩
    exact ((mem_check_claimed_land g pr pc).1 hp).2.2.1

/-- Witness for C2 at the example game after three of four fences are up. -/
theorem check_claimed_land_spec_witness :
    (((0, 0) ∈ exG5.check_claimed_land ↔
      ((exG5.cellAt 0 0).owner = none ∧
       exG5.hfence 0 0 = true ∧ exG5.hfence 1 0 = true ∧
       exG5.vfence 0 0 = true ∧ exG5.vfence 0 1 = true)) ∧
    (∀ p ∈ exG5.check_claimed_land, (exG5.cellAt p.1 p.2).owner = none)) :=
  check_claimed_land_spec exG5 0 0 (by decide) (by decide)

/-! ## Frame lemmas for `end_game`, `next_turn`, `after_place` -/

theorem map_score_enum_map (l : List Player) (f : Nat × Player → Player)
    (hf : ∀ ip, (f ip).score = ip.2.score) :
    (l.enum.map f).map (fun p => p.score) = l.map (fun p => p.score) := by
  rw [List.map_map]
  have h1 : (fun p => p.score) ∘ f = fun ip : Nat × Player => ip.2.score :=
    funext (fun ip => hf ip)
  rw [h1]
  have h2 : (fun ip : Nat × Player => ip.2.score) =
      (fun p : Player => p.score) ∘ Prod.snd := rfl
  rw [h2, ← List.map_map, List.enum_map_snd]

theorem end_game_frame (g : ProspectorGame) (now : Int) :
    (g.end_game now).current_player_idx = g.current_player_idx ∧
    (g.end_game now).land_cells = g.land_cells ∧
    (g.end_game now).horizontal_fences = g.horizontal_fences ∧
    (g.end_game now).vertical_fences = g.vertical_fences ∧
    (g.end_game now).unclaimed_lands = g.unclaimed_lands ∧
    (g.end_game now).grid_size = g.grid_size ∧
    (g.end_game now).turn_start_time = g.turn_start_time ∧
    (g.end_game now).players.length = g.players.length ∧
    (g.end_game now).players.map (fun p => p.score) = g.players.map (fun p => p.score) := by
  unfold ProspectorGame.end_game
  split
  · simp
  · dsimp only
    split
    · split
      · rename_i hps
        simp [hps]
      · rename_i p rest hps
        simp [hps, Player.win_game]
    · split
      · rename_i w hw
        refine ⟨rfl, rfl, rfl, rfl, rfl, rfl, rfl, by simp, ?_⟩
        exact map_score_enum_map _ _ (fun ip => by
          by_cases h : ip.1 = w <;> simp [h, Player.win_game, Player.lose_game])
      · rename_i ws hws
        refine ⟨rfl, rfl, rfl, rfl, rfl, rfl, rfl, by simp, ?_⟩
        exact map_score_enum_map _ _ (fun ip => by
          by_cases h : ip.1 ∈ (computeWinners g.players).2 <;>
            simp [h, Player.draw_game, Player.lose_game])

theorem next_turn_advances (g : ProspectorGame) (now : Int) (h : g.players ≠ []) :
    (g.next_turn now).current_player_idx = (g.current_player_idx + 1) % g.players.length :=
  (next_turn_idx g now h).1

theorem check_claimed_land_update (g : ProspectorGame) (ps : List Player)
    (hist : List HistEntry) :
    (ProspectorGame.check_claimed_land { g with players := ps, game_history := hist })
      = g.check_claimed_land := rfl

theorem after_place_claimed (g : ProspectorGame) (now : Int) (pid : String)
    (row col : Int) (o : String) (cur : Player) :
    (after_place g now pid row col o cur).2.2 = g.check_claimed_land := by
  simp only [after_place, check_claimed_land_update]
  split <;> rfl

theorem after_place_turn (g : ProspectorGame) (now : Int) (pid : String)
    (row col : Int) (o : String) (cur : Player) (hne : g.players ≠ []) :
    ((after_place g now pid row col o cur).2.2 = [] →
      (after_place g now pid row col o cur).1.current_player_idx =
        (g.current_player_idx + 1) % g.players.length) ∧
    ((after_place g now pid row col o cur).2.2 ≠ [] →
      (after_place g now pid row col o cur).1.current_player_idx =
        g.current_player_idx) := by
  simp only [after_place, check_claimed_land_update]
  split
  · rename_i hemp
    constructor
    · intro _
      have hne2 : (g.players.set g.current_player_idx (cur.update_activity now)) ≠ [] := by
        intro hcon
        exact hne (List.eq_nil_of_length_eq_zero (by
          simpa [List.length_set] using congrArg List.length hcon))
      show (ProspectorGame.next_turn _ now).current_player_idx = _
      unfold ProspectorGame.next_turn
      rw [if_neg (by simpa [List.isEmpty_iff] using hne2)]
      simp [List.length_set]
    · intro hcon
      exact absurd (List.isEmpty_iff.mp hemp) hcon
  · rename_i hnemp
    constructor
    · intro hcon
      have hnil : g.check_claimed_land = [] := hcon
      exact absurd (by simp [hnil]) hnemp
    · intro _
      show (if _ = (0 : Int) then ProspectorGame.end_game _ now else _).current_player_idx = _
      split
      · exact (end_game_frame _ now).1
      · rfl

/-! ## Shape of a successful `place_fence` call -/

theorem place_fence_success_cases (g : ProspectorGame) (now : Int) (pid : String)
    (row col : Int) (o : String)
    (hok : (g.place_fence now pid row col o).2.1 = true) :
    ∃ cur, g.get_current_player = some cur ∧ cur.id = pid ∧
      g.state = GameState.playing ∧ g.turn_expired now = false ∧
      ((o = ORIENTATION_HORIZONTAL ∧
        (0 ≤ row ∧ row ≤ (g.grid_size : Int) ∧ 0 ≤ col ∧ col < (g.grid_size : Int)) ∧
        g.hfence row.toNat col.toNat = false ∧
        g.place_fence now pid row col o =
          after_place
            { g with horizontal_fences := setFence g.horizontal_fences row.toNat col.toNat }
            now pid row col o cur) ∨
       (o = ORIENTATION_VERTICAL ∧
        (0 ≤ row ∧ row < (g.grid_size : Int) ∧ 0 ≤ col ∧ col ≤ (g.grid_size : Int)) ∧
        g.vfence row.toNat col.toNat = false ∧
        g.place_fence now pid row col o =
          after_place
            { g with vertical_fences := setFence g.vertical_fences row.toNat col.toNat }
            now pid row col o cur)) := by
  unfold ProspectorGame.place_fence at hok
  split at hok
  · exact absurd hok (by simp)
  · rename_i hstate
    split at hok
    · exact absurd hok (by simp)
    · rename_i cur hcp
      split at hok
      · exact absurd hok (by simp)
      · rename_i hid
        split at hok
        · exact absurd hok (by simp)
        · rename_i hexp
          split at hok
          · rename_i hor
            split at hok
            · exact absurd hok (by simp)
            · rename_i hrange
              split at hok
              · exact absurd hok (by simp)
              · rename_i hbit
                refine ⟨cur, hcp, not_not.mp hid, not_not.mp hstate,
                  by simpa using hexp, Or.inl ⟨hor, not_not.mp hrange,
                  by simpa using hbit, ?_⟩⟩
                simp only [ProspectorGame.place_fence, hcp]
                rw [if_neg hstate, if_neg hid, if_neg hexp, if_pos hor, if_neg hrange,
                  if_neg hbit]
          · rename_i hnor
            split at hok
            · rename_i hov
              split at hok
              · exact absurd hok (by simp)
              · rename_i hrange
                split at hok
                · exact absurd hok (by simp)
                · rename_i hbit
                  refine ⟨cur, hcp, not_not.mp hid, not_not.mp hstate,
                    by simpa using hexp, Or.inr ⟨hov, not_not.mp hrange,
                    by simpa using hbit, ?_⟩⟩
                  simp only [ProspectorGame.place_fence, hcp]
                  rw [if_neg hstate, if_neg hid, if_neg hexp, if_neg hnor, if_pos hov,
                    if_neg hrange, if_neg hbit]
            · exact absurd hok (by simp)

/-! ## C1: the turn invariant of `place_fence` -/

/-- C1: for a game in the playing state, a successful `place_fence` that claims
at least one cell leaves the current-turn index unchanged, and one that claims
no cell advances it by exactly one modulo the roster size. -/
theorem place_fence_turn (g : ProspectorGame) (now : Int) (pid : String)
    (row col : Int) (o : String)
    (hplay : g.state = GameState.playing)
    (hok : (g.place_fence now pid row col o).2.1 = true) :
    ((g.place_fence now pid row col o).2.2 ≠ [] →
       (g.place_fence now pid row col o).1.current_player_idx = g.current_player_idx) ∧
    ((g.place_fence now pid row col o).2.2 = [] →
       (g.place_fence now pid row col o).1.current_player_idx =
         (g.current_player_idx + 1) % g.players.length) := by
  obtain ⟨cur, hcp, hid, _, hexp, hcase⟩ :=
    place_fence_success_cases g now pid row col o hok
  obtain ⟨hne, hlt, hget⟩ := get_current_player_eq_some hcp
  rcases hcase with ⟨ho, hr, hb, heq⟩ | ⟨ho, hr, hb, heq⟩
  · rw [heq]
    have h := after_place_turn
      { g with horizontal_fences := setFence g.horizontal_fences row.toNat col.toNat }
      now pid row col o cur hne
    exact ⟨h.2, h.1⟩
  · rw [heq]
    have h := after_place_turn
      { g with vertical_fences := setFence g.vertical_fences row.toNat col.toNat }
      now pid row col o cur hne
    exact ⟨h.2, h.1⟩

/-- Witness for C1: in the 1×1 example game the first fence placement claims
nothing, so the turn advances from index 0 to index 1. -/
theorem place_fence_turn_witness :
    ((exG2.place_fence 0 "a" 0 0 ORIENTATION_HORIZONTAL).2.2 ≠ [] →
       (exG2.place_fence 0 "a" 0 0 ORIENTATION_HORIZONTAL).1.current_player_idx =
         exG2.current_player_idx) ∧
    ((exG2.place_fence 0 "a" 0 0 ORIENTATION_HORIZONTAL).2.2 = [] →
       (exG2.place_fence 0 "a" 0 0 ORIENTATION_HORIZONTAL).1.current_player_idx =
         (exG2.current_player_idx + 1) % exG2.players.length) :=
  place_fence_turn exG2 0 "a" 0 0 ORIENTATION_HORIZONTAL (by decide) (by decide)

/-! ## C8: a successful placement flips exactly one lattice bit -/

theorem setFence_spec (m : List (List Bool)) (r c : Nat)
    (hr : r < m.length) (hc : c < (m.getD r []).length) :
    (((setFence m r c).getD r []).getD c false = true) ∧
    (∀ r' c', ¬(r' = r ∧ c' = c) →
      ((setFence m r c).getD r' []).getD c' false = (m.getD r' []).getD c' false) := by
  simp only [List.getD_eq_getElem?_getD] at hc
  constructor
  · unfold setFence
    simp only [List.getD_eq_getElem?_getD]
    rw [List.getElem?_set_self hr, Option.getD_some, List.getElem?_set_self hc,
      Option.getD_some]
  · intro r' c' hne
    unfold setFence
    simp only [List.getD_eq_getElem?_getD]
    by_cases hr' : r' = r
    · subst hr'
      have hc' : c ≠ c' := fun h => hne ⟨rfl, h.symm⟩
      rw [List.getElem?_set_self hr, Option.getD_some, List.getElem?_set_ne hc']
    · have hrr : r ≠ r' := fun h => hr' h.symm
      rw [List.getElem?_set_ne hrr]

theorem after_place_fences (g : ProspectorGame) (now : Int) (pid : String)
    (row col : Int) (o : String) (cur : Player) :
    (after_place g now pid row col o cur).1.horizontal_fences = g.horizontal_fences ∧
    (after_place g now pid row col o cur).1.vertical_fences = g.vertical_fences ∧
    (after_place g now pid row col o cur).1.grid_size = g.grid_size := by
  simp only [after_place, check_claimed_land_update]
  split
  · refine ⟨?_, ?_, ?_⟩ <;>
    · show _ = _
      unfold ProspectorGame.next_turn
      split <;> rfl
  · refine ⟨?_, ?_, ?_⟩
    · show (if _ = (0 : Int) then ProspectorGame.end_game _ now else _).horizontal_fences = _
      split
      · exact (end_game_frame _ now).2.2.1
      · rfl
    · show (if _ = (0 : Int) then ProspectorGame.end_game _ now else _).vertical_fences = _
      split
      · exact (end_game_frame _ now).2.2.2.1
      · rfl
    · show (if _ = (0 : Int) then ProspectorGame.end_game _ now else _).grid_size = _
      split
      · exact (end_game_frame _ now).2.2.2.2.2.1
      · rfl

theorem getD_row_length {m : List (List Bool)} {r n : Nat} (hr : r < m.length)
    (hall : ∀ lane ∈ m, lane.length = n) : (m.getD r []).length = n := by
  have hx : m.getD r [] = m[r] := by
    rw [List.getD_eq_getElem?_getD, List.getElem?_eq_getElem hr, Option.getD_some]
  rw [hx]
  exact hall _ (List.getElem_mem hr)

/-- C8: every successful `place_fence` flips exactly one entry of exactly one
fence lattice from false to true; all other entries of that lattice and the
whole other lattice are unchanged. Stated for well-formed fence lattices (the
dimensions the constructor allocates). -/
theorem place_fence_one_bit (g : ProspectorGame) (now : Int) (pid : String)
    (row col : Int) (o : String) (hwf : fencesWF g)
    (hok : (g.place_fence now pid row col o).2.1 = true) :
    (∃ r c, g.hfence r c = false ∧
       (g.place_fence now pid row col o).1.hfence r c = true ∧
       (∀ r' c', ¬(r' = r ∧ c' = c) →
         (g.place_fence now pid row col o).1.hfence r' c' = g.hfence r' c') ∧
       (g.place_fence now pid row col o).1.vertical_fences = g.vertical_fences) ∨
    (∃ r c, g.vfence r c = false ∧
       (g.place_fence now pid row col o).1.vfence r c = true ∧
       (∀ r' c', ¬(r' = r ∧ c' = c) →
         (g.place_fence now pid row col o).1.vfence r' c' = g.vfence r' c') ∧
       (g.place_fence now pid row col o).1.horizontal_fences = g.horizontal_fences) := by
  obtain ⟨cur, hcp, hid, _hplay, hexp, hcase⟩ :=
    place_fence_success_cases g now pid row col o hok
  rcases hcase with ⟨ho, hrange, hb, heq⟩ | ⟨ho, hrange, hb, heq⟩
  · left
    obtain ⟨h1, h2, h3, h4⟩ := hrange
    have hrn : row.toNat < g.horizontal_fences.length := by
      rw [hwf.1]
      have : row.toNat ≤ g.grid_size := Int.toNat_le.mpr h2
      omega
    have hcn : col.toNat < (g.horizontal_fences.getD row.toNat []).length := by
      rw [getD_row_length hrn hwf.2.1]
      exact (Int.toNat_lt h3).mpr h4
    have hspec := setFence_spec g.horizontal_fences row.toNat col.toNat hrn hcn
    have hf := after_place_fences
      { g with horizontal_fences := setFence g.horizontal_fences row.toNat col.toNat }
      now pid row col o cur
    refine ⟨row.toNat, col.toNat, hb, ?_, ?_, ?_⟩
    · rw [heq]
      unfold ProspectorGame.hfence
      rw [hf.1]
      exact hspec.1
    · intro r' c' hne
      rw [heq]
      unfold ProspectorGame.hfence
      rw [hf.1]
      exact hspec.2 r' c' hne
    · rw [heq, hf.2.1]
  · right
    obtain ⟨h1, h2, h3, h4⟩ := hrange
    have hrn : row.toNat < g.vertical_fences.length := by
      rw [hwf.2.2.1]
      exact (Int.toNat_lt h1).mpr h2
    have hcn : col.toNat < (g.vertical_fences.getD row.toNat []).length := by
      rw [getD_row_length hrn hwf.2.2.2]
      have : col.toNat ≤ g.grid_size := Int.toNat_le.mpr h4
      omega
    have hspec := setFence_spec g.vertical_fences row.toNat col.toNat hrn hcn
    have hf := after_place_fences
      { g with vertical_fences := setFence g.vertical_fences row.toNat col.toNat }
      now pid row col o cur
    refine ⟨row.toNat, col.toNat, hb, ?_, ?_, ?_⟩
    · rw [heq]
      unfold ProspectorGame.vfence
      rw [hf.2.1]
      exact hspec.1
    · intro r' c' hne
      rw [heq]
      unfold ProspectorGame.vfence
      rw [hf.2.1]
      exact hspec.2 r' c' hne
    · rw [heq, hf.1]

/-- Witness for C8 at the example game's first placement. -/
theorem place_fence_one_bit_witness :
    (∃ r c, exG2.hfence r c = false ∧
       (exG2.place_fence 0 "a" 0 0 ORIENTATION_HORIZONTAL).1.hfence r c = true ∧
       (∀ r' c', ¬(r' = r ∧ c' = c) →
         (exG2.place_fence 0 "a" 0 0 ORIENTATION_HORIZONTAL).1.hfence r' c' =
           exG2.hfence r' c') ∧
       (exG2.place_fence 0 "a" 0 0 ORIENTATION_HORIZONTAL).1.vertical_fences =
         exG2.vertical_fences) ∨
    (∃ r c, exG2.vfence r c = false ∧
       (exG2.place_fence 0 "a" 0 0 ORIENTATION_HORIZONTAL).1.vfence r c = true ∧
       (∀ r' c', ¬(r' = r ∧ c' = c) →
         (exG2.place_fence 0 "a" 0 0 ORIENTATION_HORIZONTAL).1.vfence r' c' =
           exG2.vfence r' c') ∧
       (exG2.place_fence 0 "a" 0 0 ORIENTATION_HORIZONTAL).1.horizontal_fences =
         exG2.horizontal_fences) :=
  place_fence_one_bit exG2 0 "a" 0 0 ORIENTATION_HORIZONTAL
    ⟨by decide, by decide, by decide, by decide⟩ (by decide)

/-! ## C4: failed placements mutate nothing (except the timeout turn-advance) -/

theorem place_fence_failure_cases (g : ProspectorGame) (now : Int) (pid : String)
    (row col : Int) (o : String)
    (hfail : (g.place_fence now pid row col o).2.1 = false) :
    g.place_fence now pid row col o = (g, false, []) ∨
    (g.turn_expired now = true ∧
      g.place_fence now pid row col o = (g.next_turn now, false, [])) := by
  unfold ProspectorGame.place_fence at hfail
  split at hfail
  · rename_i hstate
    left
    unfold ProspectorGame.place_fence
    rw [if_pos hstate]
  · rename_i hstate
    split at hfail
    · rename_i hnone
      left
      simp only [ProspectorGame.place_fence, hnone]
      rw [if_neg hstate]
    · rename_i cur hcp
      split at hfail
      · rename_i hid
        left
        simp only [ProspectorGame.place_fence, hcp]
        rw [if_neg hstate]
        exact if_pos hid
      · rename_i hid
        split at hfail
        · rename_i hexp
          right
          refine ⟨hexp, ?_⟩
          simp only [ProspectorGame.place_fence, hcp]
          rw [if_neg hstate]
          rw [if_neg hid, if_pos hexp]
        · rename_i hexp
          split at hfail
          · rename_i hor
            split at hfail
            · rename_i hrange
              left
              simp only [ProspectorGame.place_fence, hcp]
              rw [if_neg hstate]
              rw [if_neg hid, if_neg hexp, if_pos hor, if_pos hrange]
            · rename_i hrange
              split at hfail
              · rename_i hbit
                left
                simp only [ProspectorGame.place_fence, hcp]
                rw [if_neg hstate]
                rw [if_neg hid, if_neg hexp, if_pos hor, if_neg hrange, if_pos hbit]
              · exact absurd hfail (by simp [after_place_ok])
          · rename_i hnor
            split at hfail
            · rename_i hov
              split at hfail
              · rename_i hrange
                left
                simp only [ProspectorGame.place_fence, hcp]
                rw [if_neg hstate]
                rw [if_neg hid, if_neg hexp, if_neg hnor, if_pos hov, if_pos hrange]
              · rename_i hrange
                split at hfail
                · rename_i hbit
                  left
                  simp only [ProspectorGame.place_fence, hcp]
                  rw [if_neg hstate]
                  rw [if_neg hid, if_neg hexp, if_neg hnor, if_pos hov, if_neg hrange,
                    if_pos hbit]
                · exact absurd hfail (by simp [after_place_ok])
            · rename_i hnov
              left
              simp only [ProspectorGame.place_fence, hcp]
              rw [if_neg hstate]
              rw [if_neg hid, if_neg hexp, if_neg hnor, if_neg hnov]

/-- C4: when `place_fence` fails, no fence entry, cell owner, player record,
history entry or unclaimed counter changes; the only permitted side effect is
that a failure caused by an expired turn clock advances the turn index by one
(mod roster size) and resets the turn clock. -/
theorem place_fence_failure_frame (g : ProspectorGame) (now : Int) (pid : String)
    (row col : Int) (o : String)
    (hfail : (g.place_fence now pid row col o).2.1 = false) :
    (g.place_fence now pid row col o).1.horizontal_fences = g.horizontal_fences ∧
    (g.place_fence now pid row col o).1.vertical_fences = g.vertical_fences ∧
    (g.place_fence now pid row col o).1.land_cells = g.land_cells ∧
    (g.place_fence now pid row col o).1.players = g.players ∧
    (g.place_fence now pid row col o).1.game_history = g.game_history ∧
    (g.place_fence now pid row col o).1.unclaimed_lands = g.unclaimed_lands ∧
    (g.place_fence now pid row col o).1.state = g.state ∧
    (((g.place_fence now pid row col o).1.current_player_idx = g.current_player_idx ∧
      (g.place_fence now pid row col o).1.turn_start_time = g.turn_start_time) ∨
     (g.turn_expired now = true ∧
      (g.place_fence now pid row col o).1.current_player_idx =
        (g.current_player_idx + 1) % g.players.length ∧
      (g.place_fence now pid row col o).1.turn_start_time = some now)) := by
  rcases place_fence_failure_cases g now pid row col o hfail with heq | ⟨hexp, heq⟩
  · rw [heq]
    exact ⟨rfl, rfl, rfl, rfl, rfl, rfl, rfl, Or.inl ⟨rfl, rfl⟩⟩
  · rw [heq]
    have hfr := next_turn_frame g now
    refine ⟨hfr.1, hfr.2.1, hfr.2.2.1, hfr.2.2.2.1, hfr.2.2.2.2.1, hfr.2.2.2.2.2.1,
      hfr.2.2.2.2.2.2.1, ?_⟩
    by_cases hne : g.players = []
    · left
      unfold ProspectorGame.next_turn
      rw [if_pos (by simpa [List.isEmpty_iff] using hne)]
      exact ⟨rfl, rfl⟩
    · right
      exact ⟨hexp, (next_turn_idx g now hne).1, (next_turn_idx g now hne).2⟩

/-- Witness for C4: in the example game a call by the wrong player fails and
leaves the game untouched. -/
theorem place_fence_failure_frame_witness :
    (exG2.place_fence 0 "b" 0 0 ORIENTATION_HORIZONTAL).1.horizontal_fences =
      exG2.horizontal_fences ∧
    (exG2.place_fence 0 "b" 0 0 ORIENTATION_HORIZONTAL).1.vertical_fences =
      exG2.vertical_fences ∧
    (exG2.place_fence 0 "b" 0 0 ORIENTATION_HORIZONTAL).1.land_cells = exG2.land_cells ∧
    (exG2.place_fence 0 "b" 0 0 ORIENTATION_HORIZONTAL).1.players = exG2.players ∧
    (exG2.place_fence 0 "b" 0 0 ORIENTATION_HORIZONTAL).1.game_history =
      exG2.game_history ∧
    (exG2.place_fence 0 "b" 0 0 ORIENTATION_HORIZONTAL).1.unclaimed_lands =
      exG2.unclaimed_lands ∧
    (exG2.place_fence 0 "b" 0 0 ORIENTATION_HORIZONTAL).1.state = exG2.state ∧
    (((exG2.place_fence 0 "b" 0 0 ORIENTATION_HORIZONTAL).1.current_player_idx =
        exG2.current_player_idx ∧
      (exG2.place_fence 0 "b" 0 0 ORIENTATION_HORIZONTAL).1.turn_start_time =
        exG2.turn_start_time) ∨
     (exG2.turn_expired 0 = true ∧
      (exG2.place_fence 0 "b" 0 0 ORIENTATION_HORIZONTAL).1.current_player_idx =
        (exG2.current_player_idx + 1) % exG2.players.length ∧
      (exG2.place_fence 0 "b" 0 0 ORIENTATION_HORIZONTAL).1.turn_start_time = some 0)) :=
  place_fence_failure_frame exG2 0 "b" 0 0 ORIENTATION_HORIZONTAL (by decide)

/-! ## C5: `remove_player` during play -/

/-- C5: removing a present player from a playing game returns true, finishes
the game, credits every remaining player a win and the departing player (at
the found index, before the pop) a loss, and appends a `player_left` history
entry; removing an absent player returns false and changes nothing. -/
theorem remove_player_spec (g : ProspectorGame) (now : Int) (pid : String)
    (hplay : g.state = GameState.playing) :
    (∀ i, g.players.findIdx? (fun p => p.id = pid) = some i →
      (g.remove_player now pid).2 = true ∧
      (g.remove_player now pid).1.state = GameState.finished ∧
      (g.remove_player now pid).1.players = (remove_player_stats g.players i).eraseIdx i ∧
      (∀ j, (remove_player_stats g.players i)[j]? =
        (g.players[j]?).map (fun p => if j = i then p.lose_game else p.win_game)) ∧
      (g.remove_player now pid).1.game_history =
        g.game_history ++ [HistEntry.player_left pid now]) ∧
    (g.players.findIdx? (fun p => p.id = pid) = none →
      g.remove_player now pid = (g, false)) := by
  constructor
  · intro i hfind
    simp only [ProspectorGame.remove_player, hfind]
    rw [if_pos hplay]
    rw [if_neg (by simp)]
    refine ⟨by trivial, by trivial, by trivial, ?_, by trivial⟩
    intro j
    unfold remove_player_stats
    rw [List.getElem?_map, List.getElem?_enum]
    cases h : g.players[j]? <;> simp
  · intro hnone
    simp only [ProspectorGame.remove_player, hnone]

/-- Witness for C5: removing "a" from the playing example game. -/
theorem remove_player_spec_witness :
    (∀ i, exG2.players.findIdx? (fun p => p.id = "a") = some i →
      (exG2.remove_player 0 "a").2 = true ∧
      (exG2.remove_player 0 "a").1.state = GameState.finished ∧
      (exG2.remove_player 0 "a").1.players =
        (remove_player_stats exG2.players i).eraseIdx i ∧
      (∀ j, (remove_player_stats exG2.players i)[j]? =
        (exG2.players[j]?).map (fun p => if j = i then p.lose_game else p.win_game)) ∧
      (exG2.remove_player 0 "a").1.game_history =
        exG2.game_history ++ [HistEntry.player_left "a" 0]) ∧
    (exG2.players.findIdx? (fun p => p.id = "a") = none →
      exG2.remove_player 0 "a" = (exG2, false)) :=
  remove_player_spec exG2 0 "a" (by decide)

/-! ## C3: behaviour of the engine operations on a finished game -/

/-- Counterexample for C3 as stated: the finished one-player example game is
revived to the playing state by `add_player` (the code checks only capacity,
not the lifecycle state, and re-enters `playing` as soon as the roster reaches
two). -/
theorem finished_not_terminal_counterexample :
    exG7.state = GameState.finished ∧
    (exG7.add_player 3 (Player.make "Carol" "c" 3)).1.state = GameState.playing := by
  decide

theorem remove_player_finished (g : ProspectorGame) (now : Int) (rid : String)
    (hfin : g.state = GameState.finished) :
    (g.remove_player now rid).1 = g ∨
    ∃ i, (g.remove_player now rid).1 = { g with players := g.players.eraseIdx i } := by
  have hnp : g.state ≠ GameState.playing := by rw [hfin]; intro h; cases h
  unfold ProspectorGame.remove_player
  cases hfind : g.players.findIdx? (fun q => q.id = rid) with
  | none => exact Or.inl rfl
  | some i =>
    right
    refine ⟨i, ?_⟩
    dsimp only
    rw [if_neg hnp, if_neg (fun h => hnp h.2)]

theorem add_player_shape (g : ProspectorGame) (now : Int) (p : Player) :
    ((g.add_player now p).1.horizontal_fences = g.horizontal_fences ∧
     (g.add_player now p).1.vertical_fences = g.vertical_fences ∧
     (g.add_player now p).1.land_cells = g.land_cells) ∧
    ((g.add_player now p).1.players = g.players ∨
     (g.add_player now p).1.players = g.players ++ [p]) := by
  unfold ProspectorGame.add_player
  split
  · dsimp only
    split
    · exact ⟨⟨rfl, rfl, rfl⟩, Or.inr rfl⟩
    · exact ⟨⟨rfl, rfl, rfl⟩, Or.inr rfl⟩
  · exact ⟨⟨rfl, rfl, rfl⟩, Or.inl rfl⟩

/-- C3 amended: `finished` is terminal for `remove_player`, `place_fence`,
`check_inactivity` and `end_game` (the first leaves the state `finished` and
only pops a roster entry; the latter three change nothing at all), and none of
the five operations mutates the fence lattices or cell owners of a finished
game; however `add_player` on a finished game still appends a player when the
roster is below capacity and sets the state back to `playing` once the roster
reaches two, so `finished` is not terminal for `add_player`. -/
theorem finished_frame (g : ProspectorGame) (now : Int) (pid rid : String)
    (row col : Int) (o : String) (p : Player)
    (hfin : g.state = GameState.finished) :
    (g.place_fence now pid row col o).1 = g ∧
    (g.check_inactivity now).1 = g ∧
    g.end_game now = g ∧
    (g.remove_player now rid).1.state = GameState.finished ∧
    (g.remove_player now rid).1.horizontal_fences = g.horizontal_fences ∧
    (g.remove_player now rid).1.vertical_fences = g.vertical_fences ∧
    (g.remove_player now rid).1.land_cells = g.land_cells ∧
    (∀ q ∈ (g.remove_player now rid).1.players, q ∈ g.players) ∧
    (g.add_player now p).1.horizontal_fences = g.horizontal_fences ∧
    (g.add_player now p).1.vertical_fences = g.vertical_fences ∧
    (g.add_player now p).1.land_cells = g.land_cells ∧
    (∀ q ∈ (g.add_player now p).1.players, q ∈ g.players ∨ q = p) := by
  have hnp : g.state ≠ GameState.playing := by rw [hfin]; intro h; cases h
  have hrem := remove_player_finished g now rid hfin
  have hadd := add_player_shape g now p
  refine ⟨?_, ?_, ?_, ?_, ?_, ?_, ?_, ?_, hadd.1.1, hadd.1.2.1, hadd.1.2.2, ?_⟩
  · unfold ProspectorGame.place_fence
    rw [if_pos hnp]
  · unfold ProspectorGame.check_inactivity
    cases hts : g.turn_start_time with
    | none => rfl
    | some t =>
      dsimp only
      rw [if_pos hnp]
  · unfold ProspectorGame.end_game
    rw [if_pos hfin]
  · rcases hrem with h | ⟨i, h⟩ <;> rw [h] <;> exact hfin
  · rcases hrem with h | ⟨i, h⟩ <;> rw [h]
  · rcases hrem with h | ⟨i, h⟩ <;> rw [h]
  · rcases hrem with h | ⟨i, h⟩ <;> rw [h]
  · rcases hrem with h | ⟨i, h⟩ <;> rw [h]
    · exact fun q hq => hq
    · exact fun q hq => (List.eraseIdx_sublist g.players i).subset hq
  · rcases hadd.2 with h | h <;> rw [h]
    · exact fun q hq => Or.inl hq
    · intro q hq
      rcases List.mem_append.mp hq with h1 | h1
      · exact Or.inl h1
      · exact Or.inr (List.mem_singleton.mp h1)

/-- Witness for the amended C3 at the finished one-player example game. -/
theorem finished_frame_witness :
    (exG7.place_fence 9 "b" 0 0 ORIENTATION_HORIZONTAL).1 = exG7 ∧
    (exG7.check_inactivity 9).1 = exG7 ∧
    exG7.end_game 9 = exG7 ∧
    (exG7.remove_player 9 "b").1.state = GameState.finished ∧
    (exG7.remove_player 9 "b").1.horizontal_fences = exG7.horizontal_fences ∧
    (exG7.remove_player 9 "b").1.vertical_fences = exG7.vertical_fences ∧
    (exG7.remove_player 9 "b").1.land_cells = exG7.land_cells ∧
    (∀ q ∈ (exG7.remove_player 9 "b").1.players, q ∈ exG7.players) ∧
    (exG7.add_player 9 exPA).1.horizontal_fences = exG7.horizontal_fences ∧
    (exG7.add_player 9 exPA).1.vertical_fences = exG7.vertical_fences ∧
    (exG7.add_player 9 exPA).1.land_cells = exG7.land_cells ∧
    (∀ q ∈ (exG7.add_player 9 exPA).1.players, q ∈ exG7.players ∨ q = exPA) :=
  finished_frame exG7 9 "b" "b" 0 0 ORIENTATION_HORIZONTAL exPA (by decide)

/-! ## C7: serialization round trip -/

theorem foldl_set_range {α : Type} (l : List α) (d : α) (f : Nat → α → α) (n : Nat)
    (hn : n ≤ l.length) :
    (List.range n).foldl (fun acc i => acc.set i (f i (acc.getD i d))) l =
      (List.range n).map (fun i => f i (l.getD i d)) ++ l.drop n := by
  induction n with
  | zero => simp
  | succ k ih =>
    have hk : k ≤ l.length := Nat.le_of_succ_le hn
    have hklt : k < l.length := hn
    rw [List.range_succ, List.foldl_append, List.map_append, ih hk]
    simp only [List.foldl_cons, List.foldl_nil, List.map_cons, List.map_nil]
    have hlen : ((List.range k).map (fun i => f i (l.getD i d))).length = k := by simp
    have hgd : ((List.range k).map (fun i => f i (l.getD i d)) ++ l.drop k).getD k d
        = l.getD k d := by
      rw [List.getD_eq_getElem?_getD, List.getElem?_append_right (le_of_eq hlen), hlen,
        Nat.sub_self, List.drop_eq_getElem_cons hklt]
      rw [List.getD_eq_getElem?_getD, List.getElem?_eq_getElem hklt]
      simp [List.getElem?_eq_getElem hklt]
    rw [hgd, List.set_append, if_neg (by rw [hlen]; omega), hlen, Nat.sub_self,
      List.drop_eq_getElem_cons hklt, List.set_cons_zero]
    simp [List.append_assoc]

theorem range_map_getD {α β : Type} (l : List α) (d : α) (f : α → β) :
    (List.range l.length).map (fun i => f (l.getD i d)) = l.map f := by
  apply List.ext_getElem
  · simp
  · intro i h1 h2
    simp only [List.getElem_map, List.getElem_range]
    rw [List.getD_eq_getElem?_getD, List.getElem?_eq_getElem (by simpa using h2)]
    rfl

theorem overwriteRow_full (base : List LandCell) (dataRow : List LandCellDict) (gs : Nat)
    (hb : base.length = gs) (hd : dataRow.length = gs) :
    overwriteRow base dataRow gs = dataRow.map LandCell.from_dict := by
  unfold overwriteRow
  rw [hd, Nat.min_self]
  have h := foldl_set_range base default
    (fun i _ => LandCell.from_dict (dataRow.getD i default)) gs (le_of_eq hb.symm)
  simp only [] at h
  rw [h, show List.drop gs base = [] from by rw [← hb]; exact List.drop_length base,
    List.append_nil, show List.range gs = List.range dataRow.length from by rw [hd]]
  exact range_map_getD dataRow default LandCell.from_dict

theorem overwriteCells_full (base : List (List LandCell)) (data : List (List LandCellDict))
    (gs : Nat) (hb : base.length = gs) (hbrow : ∀ lane ∈ base, lane.length = gs)
    (hd : data.length = gs) (hdrow : ∀ lane ∈ data, lane.length = gs) :
    overwriteCells base data gs = data.map (fun lane => lane.map LandCell.from_dict) := by
  unfold overwriteCells
  rw [hd, Nat.min_self]
  have h := foldl_set_range base []
    (fun r lane => overwriteRow lane (data.getD r []) gs) gs (le_of_eq hb.symm)
  simp only [] at h
  rw [h, show List.drop gs base = [] from by rw [← hb]; exact List.drop_length base,
    List.append_nil]
  apply List.ext_getElem
  · simp [hd]
  · intro i h1 h2
    have higs : i < gs := by simpa using h1
    have hib : i < base.length := by omega
    have hid : i < data.length := by omega
    simp only [List.getElem_map, List.getElem_range]
    have hb1 : (base.getD i []).length = gs := by
      rw [List.getD_eq_getElem?_getD, List.getElem?_eq_getElem hib]
      exact hbrow _ (List.getElem_mem hib)
    have hd1 : (data.getD i []).length = gs := by
      rw [List.getD_eq_getElem?_getD, List.getElem?_eq_getElem hid]
      exact hdrow _ (List.getElem_mem hid)
    rw [overwriteRow_full (base.getD i []) (data.getD i []) gs hb1 hd1]
    congr 1
    rw [List.getD_eq_getElem?_getD, List.getElem?_eq_getElem hid]
    rfl

theorem distribute_dims (gs : Nat) (sh : List String) :
    (distribute_land_types gs sh).length = gs ∧
    ∀ lane ∈ distribute_land_types gs sh, lane.length = gs := by
  unfold distribute_land_types
  constructor
  · simp
  · intro lane hl
    rcases List.mem_map.mp hl with ⟨r, _, rfl⟩
    simp

theorem from_dict_to_dict_cell (c : LandCell) : LandCell.from_dict c.to_dict = c := by
  cases c
  rfl

theorem from_dict_to_dict_player (p : Player) : Player.from_dict p.to_dict = p := by
  cases p
  rfl

theorem findIdx_id_eq_aux (ps : List Player) (i : Nat) (hi : i < ps.length)
    (hnd : (ps.map (fun p => p.id)).Nodup) (s : Nat) :
    List.findIdx? (fun p => p.id = ps[i].id) ps s = some (s + i) := by
  induction ps generalizing i s with
  | nil => cases hi
  | cons a as ih =>
    rw [List.findIdx?_cons]
    cases i with
    | zero =>
      rw [if_pos (by simp)]
      simp
    | succ j =>
      have hj : j < as.length := Nat.lt_of_succ_lt_succ hi
      have hcons : (a :: as)[j + 1] = as[j] := List.getElem_cons_succ a as j hi
      rw [List.map_cons, List.nodup_cons] at hnd
      obtain ⟨hnotin, hnd2⟩ := hnd
      have hne : a.id ≠ (a :: as)[j + 1].id := by
        rw [hcons]
        intro hcon
        exact hnotin (hcon ▸ List.mem_map_of_mem (fun p => p.id) (List.getElem_mem hj))
      rw [if_neg (by simpa using hne)]
      have hrec := ih j hj hnd2 (s + 1)
      rw [hcons, hrec]
      congr 1
      omega

theorem findIdx_id_eq (ps : List Player) (i : Nat) (hi : i < ps.length)
    (hnd : (ps.map (fun p => p.id)).Nodup) :
    ps.findIdx? (fun p => p.id = ps[i].id) = some i := by
  simpa using findIdx_id_eq_aux ps i hi hnd 0

/-- Counterexample for C7 as stated: three states whose `to_dict` /
`from_dict` round trip fails to reproduce the current-turn pointer, one per
proviso of the amendment. In `exG7` (finished game after a removal) index 1
is out of the one-player roster, so `to_dict` stores no `current_player_id`
and `from_dict` restores 0. In `exGD3` the index is in range but both players
carry the id "x", so the id look-up lands on the first copy. In `exGE1` the
index is in range and the ids ["q", ""] are distinct, but the current
player's id is the empty string, which `from_dict` treats as absent. -/
theorem roundtrip_idx_counterexample :
    (exG7.current_player_idx = 1 ∧ exG7.players.length = 1 ∧
      (ProspectorGame.from_dict (exG7.to_dict 5) 7 []).current_player_idx = 0) ∧
    (exGD3.current_player_idx = 1 ∧ exGD3.players.map (fun p => p.id) = ["x", "x"] ∧
      (ProspectorGame.from_dict (exGD3.to_dict 5) 7 []).current_player_idx = 0) ∧
    (exGE1.current_player_idx = 1 ∧ exGE1.players.map (fun p => p.id) = ["q", ""] ∧
      (ProspectorGame.from_dict (exGE1.to_dict 5) 7 []).current_player_idx = 0) := by
  decide

/-- C7 amended: on every state whose cell grid has the constructor's
`grid_size x grid_size` shape — including the out-of-range-pointer states of
the counterexample — the `to_dict` / `from_dict` round trip reproduces the
fence lattices, the land cells (hence ownership), and the player records
(hence scores). The current-turn pointer is additionally reproduced when the
index is in range, player ids are pairwise distinct, and the current player's
id is nonempty; the counterexample shows each of the three provisos is
needed. -/
theorem to_from_dict_roundtrip (g : ProspectorGame) (now now2 : Int)
    (shuffled : List String)
    (hdim1 : g.land_cells.length = g.grid_size)
    (hdim2 : ∀ lane ∈ g.land_cells, lane.length = g.grid_size) :
    (ProspectorGame.from_dict (g.to_dict now) now2 shuffled).horizontal_fences =
      g.horizontal_fences ∧
    (ProspectorGame.from_dict (g.to_dict now) now2 shuffled).vertical_fences =
      g.vertical_fences ∧
    (ProspectorGame.from_dict (g.to_dict now) now2 shuffled).land_cells = g.land_cells ∧
    (ProspectorGame.from_dict (g.to_dict now) now2 shuffled).players = g.players ∧
    (∀ hidx : g.current_player_idx < g.players.length,
      (g.players.map (fun p => p.id)).Nodup →
      (g.players.get ⟨g.current_player_idx, hidx⟩).id ≠ "" →
      (ProspectorGame.from_dict (g.to_dict now) now2 shuffled).current_player_idx =
        g.current_player_idx) := by
  have hplayers : (g.players.map Player.to_dict).map Player.from_dict = g.players := by
    rw [List.map_map]
    refine (List.map_congr_left ?_).trans (List.map_id g.players)
    intro p _
    simp [Function.comp_def, from_dict_to_dict_player]
  refine ⟨rfl, rfl, ?_, hplayers, ?_⟩
  · show (if ((g.to_dict now).land_cells).isEmpty then
        (ProspectorGame.init (g.to_dict now).grid_size (g.to_dict now).max_players
          (g.to_dict now).id (g.to_dict now).turn_timeout shuffled).land_cells
      else overwriteCells
        (ProspectorGame.init (g.to_dict now).grid_size (g.to_dict now).max_players
          (g.to_dict now).id (g.to_dict now).turn_timeout shuffled).land_cells
        ((g.to_dict now).land_cells) ((g.to_dict now).grid_size)) = g.land_cells
    by_cases hemp : ((g.to_dict now).land_cells).isEmpty
    · rw [if_pos hemp]
      have hnil : g.land_cells = [] := by
        have := List.isEmpty_iff.mp hemp
        exact List.map_eq_nil_iff.mp this
      have hgz : g.grid_size = 0 := by rw [← hdim1, hnil]; rfl
      show (distribute_land_types g.grid_size shuffled) = g.land_cells
      rw [hgz, hnil]
      rfl
    · rw [if_neg hemp]
      show overwriteCells (distribute_land_types g.grid_size shuffled)
        (g.land_cells.map (fun lane => lane.map LandCell.to_dict)) g.grid_size
        = g.land_cells
      rw [overwriteCells_full _ _ _ (distribute_dims g.grid_size shuffled).1
        (distribute_dims g.grid_size shuffled).2 (by simpa using hdim1)
        (by
          intro lane hl
          rcases List.mem_map.mp hl with ⟨orig, horig, rfl⟩
          simpa using hdim2 orig horig)]
      rw [List.map_map]
      refine (List.map_congr_left ?_).trans (List.map_id g.land_cells)
      intro lane _
      simp [Function.comp_def, List.map_map, from_dict_to_dict_cell]
  · intro hidx hnd hne
    have hcp : g.get_current_player = some (g.players.get ⟨g.current_player_idx, hidx⟩) :=
      get_current_player_of_lt g hidx
    show (match (g.to_dict now).current_player_id with
      | none => 0
      | some s =>
        if s = "" then 0
        else
          match ((g.to_dict now).players.map Player.from_dict).findIdx?
              (fun p => p.id = s) with
          | some i => i
          | none => 0) = g.current_player_idx
    have hcid : (g.to_dict now).current_player_id =
        some ((g.players.get ⟨g.current_player_idx, hidx⟩).id) := by
      show g.get_current_player.map (fun p => p.id) = _
      rw [hcp]
      rfl
    rw [hcid]
    dsimp only
    rw [if_neg hne]
    have hps : (g.to_dict now).players.map Player.from_dict = g.players := hplayers
    rw [hps]
    have hget : g.players.get ⟨g.current_player_idx, hidx⟩ =
        g.players[g.current_player_idx] := rfl
    rw [hget, findIdx_id_eq g.players g.current_player_idx hidx hnd]

/-- Witness for the amended C7 at the finished two-player example game, whose
current-turn index 1 is in range with distinct nonempty ids. -/
theorem to_from_dict_roundtrip_witness :
    (ProspectorGame.from_dict (exG6.to_dict 5) 7 []).horizontal_fences =
      exG6.horizontal_fences ∧
    (ProspectorGame.from_dict (exG6.to_dict 5) 7 []).vertical_fences =
      exG6.vertical_fences ∧
    (ProspectorGame.from_dict (exG6.to_dict 5) 7 []).land_cells = exG6.land_cells ∧
    (ProspectorGame.from_dict (exG6.to_dict 5) 7 []).players = exG6.players ∧
    (ProspectorGame.from_dict (exG6.to_dict 5) 7 []).current_player_idx =
      exG6.current_player_idx :=
  have h := to_from_dict_roundtrip exG6 5 7 [] (by decide) (by decide)
  ⟨h.1, h.2.1, h.2.2.1, h.2.2.2.1, h.2.2.2.2 (by decide) (by decide) (by decide)⟩

/-! ## C6: lemmas about cell updates and the value measures -/

theorem cellAt_eq_cellOf (g : ProspectorGame) (r c : Nat) :
    g.cellAt r c = cellOf g.land_cells r c := rfl

theorem cellOf_setCell (m : List (List LandCell)) (r c : Nat) (cell : LandCell)
    (hr : r < m.length) (hc : c < (m.getD r []).length) :
    ∀ r' c', cellOf (setCell m r c cell) r' c' =
      (if r' = r ∧ c' = c then cell else cellOf m r' c') := by
  intro r' c'
  unfold cellOf setCell
  simp only [List.getD_eq_getElem?_getD] at hc ⊢
  by_cases hr' : r' = r
  · subst hr'
    rw [List.getElem?_set_self hr, Option.getD_some]
    by_cases hc' : c' = c
    · subst hc'
      rw [if_pos ⟨rfl, rfl⟩, List.getElem?_set_self hc, Option.getD_some]
    · rw [if_neg (fun h => hc' h.2), List.getElem?_set_ne (fun h => hc' h.symm)]
  · rw [if_neg (fun h => hr' h.1), List.getElem?_set_ne (fun h => hr' h.symm)]

theorem setCell_dims (m : List (List LandCell)) (r c : Nat) (cell : LandCell) (gs : Nat)
    (hr : r < gs) (h1 : m.length = gs) (h2 : ∀ lane ∈ m, lane.length = gs) :
    (setCell m r c cell).length = gs ∧ ∀ lane ∈ setCell m r c cell, lane.length = gs := by
  constructor
  · simp [setCell, h1]
  · intro lane hl
    unfold setCell at hl
    rcases List.mem_or_eq_of_mem_set hl with h | h
    · exact h2 _ h
    · subst h
      rw [List.length_set]
      have hrm : r < m.length := by omega
      rw [List.getD_eq_getElem?_getD, List.getElem?_eq_getElem hrm]
      exact h2 _ (List.getElem_mem hrm)

theorem claim_lands_go (C : List (Nat × Nat)) (idx gs : Nat) :
    ∀ (cells : List (List LandCell)) (a : Int),
    cells.length = gs → (∀ lane ∈ cells, lane.length = gs) →
    (∀ rc ∈ C, rc.1 < gs ∧ rc.2 < gs) →
    ((C.foldl (fun acc rc =>
        let cell := (acc.1.getD rc.1 []).getD rc.2 default
        (setCell acc.1 rc.1 rc.2 { cell with owner := some idx }, acc.2 + cell.value))
      (cells, a)).1.length = gs ∧
     (∀ lane ∈ (C.foldl (fun acc rc =>
        let cell := (acc.1.getD rc.1 []).getD rc.2 default
        (setCell acc.1 rc.1 rc.2 { cell with owner := some idx }, acc.2 + cell.value))
      (cells, a)).1, lane.length = gs)) ∧
    (∀ r c, cellOf (C.foldl (fun acc rc =>
        let cell := (acc.1.getD rc.1 []).getD rc.2 default
        (setCell acc.1 rc.1 rc.2 { cell with owner := some idx }, acc.2 + cell.value))
      (cells, a)).1 r c =
      (if (r, c) ∈ C then { cellOf cells r c with owner := some idx }
       else cellOf cells r c)) ∧
    (C.foldl (fun acc rc =>
        let cell := (acc.1.getD rc.1 []).getD rc.2 default
        (setCell acc.1 rc.1 rc.2 { cell with owner := some idx }, acc.2 + cell.value))
      (cells, a)).2 = a + (C.map (fun rc => (cellOf cells rc.1 rc.2).value)).sum := by
  induction C with
  | nil =>
    intro cells a h1 h2 _
    refine ⟨⟨h1, h2⟩, ?_, by simp⟩
    intro r c
    rw [if_neg (by simp)]
    rfl
  | cons rc0 C' ih =>
    intro cells a h1 h2 hC
    obtain ⟨hr0, hc0⟩ := hC rc0 (by simp)
    have hrm : rc0.1 < cells.length := by omega
    have hrowlen : (cells.getD rc0.1 []).length = gs := by
      rw [List.getD_eq_getElem?_getD, List.getElem?_eq_getElem hrm]
      exact h2 _ (List.getElem_mem hrm)
    have hcm : rc0.2 < (cells.getD rc0.1 []).length := by omega
    have hdims := setCell_dims cells rc0.1 rc0.2
      { (cells.getD rc0.1 []).getD rc0.2 default with owner := some idx } gs hr0 h1 h2
    have hpt := cellOf_setCell cells rc0.1 rc0.2
      { (cells.getD rc0.1 []).getD rc0.2 default with owner := some idx } hrm hcm
    simp only [List.foldl_cons]
    have hrec := ih (setCell cells rc0.1 rc0.2
        { (cells.getD rc0.1 []).getD rc0.2 default with owner := some idx })
      (a + ((cells.getD rc0.1 []).getD rc0.2 default).value)
      hdims.1 hdims.2 (fun rc hrc => hC rc (by simp [hrc]))
    refine ⟨hrec.1, ?_, ?_⟩
    · intro r c
      rw [hrec.2.1 r c]
      by_cases hmem' : (r, c) ∈ C'
      · rw [if_pos hmem', if_pos (List.mem_cons.mpr (Or.inr hmem')), hpt r c]
        by_cases hrc : r = rc0.1 ∧ c = rc0.2
        · rw [if_pos hrc]
          have hcell : cellOf cells r c = (cells.getD rc0.1 []).getD rc0.2 default := by
            unfold cellOf
            rw [hrc.1, hrc.2]
          rw [hcell]
        · rw [if_neg hrc]
      · rw [if_neg hmem', hpt r c]
        by_cases hrc : r = rc0.1 ∧ c = rc0.2
        · rw [if_pos hrc,
            if_pos (List.mem_cons.mpr (Or.inl (by rw [Prod.ext_iff]; exact ⟨hrc.1, hrc.2⟩)))]
          have hcell : cellOf cells r c = (cells.getD rc0.1 []).getD rc0.2 default := by
            unfold cellOf
            rw [hrc.1, hrc.2]
          rw [hcell]
        · rw [if_neg hrc, if_neg (fun hmem => by
            rcases List.mem_cons.mp hmem with h | h
            · exact hrc ⟨congrArg Prod.fst h, congrArg Prod.snd h⟩
            · exact hmem' h)]
    · rw [hrec.2.2]
      have hvals : ∀ rc ∈ C',
          (cellOf (setCell cells rc0.1 rc0.2
            { (cells.getD rc0.1 []).getD rc0.2 default with owner := some idx })
            rc.1 rc.2).value = (cellOf cells rc.1 rc.2).value := by
        intro rc _
        rw [hpt rc.1 rc.2]
        by_cases hrc : rc.1 = rc0.1 ∧ rc.2 = rc0.2
        · rw [if_pos hrc]
          unfold cellOf
          rw [hrc.1, hrc.2]
        · rw [if_neg hrc]
      rw [List.map_congr_left hvals, List.map_cons, List.sum_cons]
      unfold cellOf
      ring

theorem claim_lands_spec (C : List (Nat × Nat)) (cells : List (List LandCell))
    (idx gs : Nat) (hd1 : cells.length = gs) (hd2 : ∀ lane ∈ cells, lane.length = gs)
    (hC : ∀ rc ∈ C, rc.1 < gs ∧ rc.2 < gs) :
    ((claim_lands C cells idx).1.length = gs ∧
      ∀ lane ∈ (claim_lands C cells idx).1, lane.length = gs) ∧
    (∀ r c, cellOf (claim_lands C cells idx).1 r c =
      (if (r, c) ∈ C then { cellOf cells r c with owner := some idx }
       else cellOf cells r c)) ∧
    (claim_lands C cells idx).2 =
      (C.map (fun rc => (cellOf cells rc.1 rc.2).value)).sum := by
  have h := claim_lands_go C idx gs cells 0 hd1 hd2 hC
  refine ⟨h.1, h.2.1, ?_⟩
  unfold claim_lands
  rw [h.2.2]
  ring

theorem measures_congr {g g' : ProspectorGame} (hg : g'.grid_size = g.grid_size)
    (hl : g'.land_cells = g.land_cells) :
    (∀ i, g'.ownedValue i = g.ownedValue i) ∧ g'.unownedValue = g.unownedValue ∧
    g'.totalValue = g.totalValue := by
  unfold ProspectorGame.ownedValue ProspectorGame.unownedValue ProspectorGame.totalValue
    ProspectorGame.cellAt
  rw [hg, hl]
  exact ⟨fun i => rfl, rfl, rfl⟩

theorem ownedValue_eq_zero (g : ProspectorGame) (i : Nat)
    (h : ∀ r c, r < g.grid_size → c < g.grid_size → (g.cellAt r c).owner ≠ some i) :
    g.ownedValue i = 0 := by
  unfold ProspectorGame.ownedValue
  apply Finset.sum_eq_zero
  intro rc hrc
  rw [Finset.mem_product, Finset.mem_range, Finset.mem_range] at hrc
  rw [if_neg (h rc.1 rc.2 hrc.1 hrc.2)]

theorem distribute_owner_none (gs : Nat) (sh : List String) (r c : Nat) :
    (cellOf (distribute_land_types gs sh) r c).owner = none := by
  unfold cellOf
  have hrow : ∀ row ∈ distribute_land_types gs sh, ∀ cell ∈ row, cell.owner = none := by
    intro row hr cell hcell
    unfold distribute_land_types at hr
    rcases List.mem_map.mp hr with ⟨rr, _, rfl⟩
    rcases List.mem_map.mp hcell with ⟨cc, _, rfl⟩
    rfl
  by_cases hr : r < (distribute_land_types gs sh).length
  · have hmem : (distribute_land_types gs sh).getD r [] ∈ distribute_land_types gs sh := by
      rw [List.getD_eq_getElem _ _ hr]
      exact List.getElem_mem hr
    by_cases hc : c < ((distribute_land_types gs sh).getD r []).length
    · apply hrow _ hmem
      rw [List.getD_eq_getElem _ _ hc]
      exact List.getElem_mem hc
    · rw [List.getD_eq_default ((distribute_land_types gs sh).getD r []) _ (by omega)]
      rfl
  · rw [List.getD_eq_default (distribute_land_types gs sh) _ (by omega)]
    rfl

theorem check_claimed_land_nodup (g : ProspectorGame) : g.check_claimed_land.Nodup := by
  unfold ProspectorGame.check_claimed_land
  rw [List.nodup_flatMap]
  constructor
  · intro row _
    apply List.Nodup.filterMap
    · intro c1 c2 b hb1 hb2
      split at hb1
      · split at hb2
        · have h1 := Option.some.inj hb1
          rw [← Option.some.inj hb2] at h1
          exact congrArg Prod.snd h1
        · exact absurd hb2 (by simp)
      · exact absurd hb1 (by simp)
    · exact List.nodup_range g.grid_size
  · apply List.Pairwise.imp ?_ (List.nodup_range g.grid_size)
    intro r1 r2 hne x hx1 hx2
    rw [List.mem_filterMap] at hx1 hx2
    obtain ⟨c1, _, hc1⟩ := hx1
    obtain ⟨c2, _, hc2⟩ := hx2
    split at hc1
    · split at hc2
      · have h1 := Option.some.inj hc1
        have h2 := Option.some.inj hc2
        exact hne (congrArg Prod.fst (h1.trans h2.symm))
      · exact absurd hc2 (by simp)
    · exact absurd hc1 (by simp)

theorem claim_measures (gOld gNew : ProspectorGame) (C : List (Nat × Nat)) (idx : Nat)
    (hg : gNew.grid_size = gOld.grid_size)
    (hpt : ∀ rc : Nat × Nat, gNew.cellAt rc.1 rc.2 =
      (if rc ∈ C then { gOld.cellAt rc.1 rc.2 with owner := some idx }
       else gOld.cellAt rc.1 rc.2))
    (hC : ∀ rc ∈ C, rc.1 < gOld.grid_size ∧ rc.2 < gOld.grid_size ∧
      (gOld.cellAt rc.1 rc.2).owner = none)
    (hnd : C.Nodup) :
    gNew.ownedValue idx = gOld.ownedValue idx +
      (C.map (fun rc => (gOld.cellAt rc.1 rc.2).value)).sum ∧
    (∀ i, i ≠ idx → gNew.ownedValue i = gOld.ownedValue i) ∧
    gNew.unownedValue = gOld.unownedValue -
      (C.map (fun rc => (gOld.cellAt rc.1 rc.2).value)).sum ∧
    gNew.totalValue = gOld.totalValue := by
  have hsub : C.toFinset ⊆ Finset.range gOld.grid_size ×ˢ Finset.range gOld.grid_size := by
    intro rc hrc
    rw [List.mem_toFinset] at hrc
    obtain ⟨h1, h2, _⟩ := hC rc hrc
    rw [Finset.mem_product, Finset.mem_range, Finset.mem_range]
    exact ⟨h1, h2⟩
  have hIteSum : (∑ rc ∈ Finset.range gOld.grid_size ×ˢ Finset.range gOld.grid_size,
      (if rc ∈ C then (gOld.cellAt rc.1 rc.2).value else 0)) =
      (C.map (fun rc => (gOld.cellAt rc.1 rc.2).value)).sum := by
    have hstep : (∑ rc ∈ Finset.range gOld.grid_size ×ˢ Finset.range gOld.grid_size,
        (if rc ∈ C then (gOld.cellAt rc.1 rc.2).value else 0)) =
        ∑ rc ∈ (Finset.range gOld.grid_size ×ˢ Finset.range gOld.grid_size) ∩ C.toFinset,
          (gOld.cellAt rc.1 rc.2).value := by
      rw [← Finset.sum_ite_mem]
      apply Finset.sum_congr rfl
      intro rc _
      congr 1
      simp [List.mem_toFinset]
    rw [hstep, Finset.inter_eq_right.mpr hsub, List.sum_toFinset _ hnd]
  unfold ProspectorGame.ownedValue ProspectorGame.unownedValue ProspectorGame.totalValue
  rw [hg]
  refine ⟨?_, ?_, ?_, ?_⟩
  · rw [← hIteSum, ← Finset.sum_add_distrib]
    apply Finset.sum_congr rfl
    intro rc _
    rw [hpt rc]
    by_cases hmem : rc ∈ C
    · rw [if_pos hmem]
      have hnone := (hC _ hmem).2.2
      simp [hnone, hmem]
    · rw [if_neg hmem]
      simp [hmem]
  · intro i hi
    apply Finset.sum_congr rfl
    intro rc _
    rw [hpt rc]
    by_cases hmem : rc ∈ C
    · rw [if_pos hmem]
      have hnone := (hC _ hmem).2.2
      have hnei : ¬ (some idx = some i) := fun h => hi (Option.some.inj h).symm
      simp [hnone, hnei]
    · rw [if_neg hmem]
  · rw [← hIteSum, ← Finset.sum_sub_distrib]
    apply Finset.sum_congr rfl
    intro rc _
    rw [hpt rc]
    by_cases hmem : rc ∈ C
    · rw [if_pos hmem]
      have hnone := (hC _ hmem).2.2
      simp [hnone, hmem]
    · rw [if_neg hmem]
      simp [hmem]
  · apply Finset.sum_congr rfl
    intro rc _
    rw [hpt rc]
    by_cases hmem : rc ∈ C
    · rw [if_pos hmem]
    · rw [if_neg hmem]

theorem value_partition (g : ProspectorGame) (n : Nat)
    (howners : ∀ r c, r < g.grid_size → c < g.grid_size →
      ∀ j, (g.cellAt r c).owner = some j → j < n) :
    (∑ i ∈ Finset.range n, g.ownedValue i) + g.unownedValue = g.totalValue := by
  unfold ProspectorGame.ownedValue ProspectorGame.unownedValue ProspectorGame.totalValue
  rw [Finset.sum_comm, ← Finset.sum_add_distrib]
  apply Finset.sum_congr rfl
  intro rc hrc
  rw [Finset.mem_product, Finset.mem_range, Finset.mem_range] at hrc
  cases howner : (g.cellAt rc.1 rc.2).owner with
  | none =>
    simp
  | some j =>
    have hj : j < n := howners rc.1 rc.2 hrc.1 hrc.2 j howner
    have hsum : (∑ i ∈ Finset.range n,
        if some j = some i then (g.cellAt rc.1 rc.2).value else 0) =
        (g.cellAt rc.1 rc.2).value := by
      have heq : ∀ i, (if some j = some i then (g.cellAt rc.1 rc.2).value else 0) =
          (if j = i then (g.cellAt rc.1 rc.2).value else 0) := by
        intro i
        by_cases h : j = i
        · rw [if_pos h, if_pos (by rw [h])]
        · rw [if_neg h, if_neg (fun hc => h (Option.some.inj hc))]
      rw [Finset.sum_congr rfl (fun i _ => heq i), Finset.sum_ite_eq,
        if_pos (Finset.mem_range.mpr hj)]
    rw [hsum]
    simp

theorem map_sum_set (l : List Player) (i : Nat) (p : Player) :
    ∀ hi : i < l.length,
    ((l.set i p).map (fun q => q.score)).sum =
      (l.map (fun q => q.score)).sum - (l.get ⟨i, hi⟩).score + p.score := by
  induction l generalizing i with
  | nil => intro hi; cases hi
  | cons a as ih =>
    intro hi
    cases i with
    | zero =>
      simp [List.set_cons_zero]
      ring
    | succ j =>
      have hj : j < as.length := Nat.lt_of_succ_lt_succ hi
      simp only [List.set_cons_succ, List.map_cons, List.sum_cons, ih j hj]
      have : (a :: as).get ⟨j + 1, hi⟩ = as.get ⟨j, hj⟩ := rfl
      rw [this]
      ring

theorem scoreSum_eq_range (l : List Player) :
    (l.map (fun p => p.score)).sum =
      ∑ i ∈ Finset.range l.length, (l.getD i default).score := by
  induction l with
  | nil => simp
  | cons a as ih =>
    rw [List.map_cons, List.sum_cons, ih, List.length_cons, Finset.sum_range_succ']
    simp only [List.getD_cons_succ, List.getD_cons_zero]
    ring

/-! ## C6: the invariant induction over no-removal reachability -/

theorem invParts_frame {g g' : ProspectorGame} (hg : g'.grid_size = g.grid_size)
    (hl : g'.land_cells = g.land_cells) (hp : g'.players = g.players)
    (h : InvParts g) : InvParts g' := by
  obtain ⟨⟨h1, h2⟩, h3, h4⟩ := h
  have hca : ∀ r c, g'.cellAt r c = g.cellAt r c := by
    intro r c
    unfold ProspectorGame.cellAt
    rw [hl]
  refine ⟨⟨by rw [hl, hg]; exact h1, by rw [hl, hg]; exact h2⟩, ?_, ?_⟩
  · intro r c hr hc j hj
    rw [hp]
    rw [hg] at hr hc
    rw [hca] at hj
    exact h3 r c hr hc j hj
  · intro j p hpj
    rw [hp] at hpj
    rw [(measures_congr hg hl).1 j]
    exact h4 j p hpj

theorem invParts_set_current (G : ProspectorGame) (cur cur1 : Player)
    (gNew : ProspectorGame)
    (hcur : G.players[G.current_player_idx]? = some cur)
    (hscore : cur1.score = cur.score)
    (hInvG : InvParts G)
    (hgrid : gNew.grid_size = G.grid_size)
    (hcells : gNew.land_cells = G.land_cells)
    (hplayers : gNew.players = G.players.set G.current_player_idx cur1) :
    InvParts gNew := by
  obtain ⟨⟨h1, h2⟩, h3, h4⟩ := hInvG
  have hlt : G.current_player_idx < G.players.length := by
    by_contra hcon
    rw [List.getElem?_eq_none (by omega)] at hcur
    cases hcur
  have hca : ∀ r c, gNew.cellAt r c = G.cellAt r c := by
    intro r c
    unfold ProspectorGame.cellAt
    rw [hcells]
  refine ⟨⟨by rw [hcells, hgrid]; exact h1, by rw [hcells, hgrid]; exact h2⟩, ?_, ?_⟩
  · intro r c hr hc j hj
    rw [hplayers, List.length_set]
    rw [hgrid] at hr hc
    rw [hca] at hj
    exact h3 r c hr hc j hj
  · intro j p hpj
    rw [hplayers] at hpj
    rw [(measures_congr hgrid hcells).1 j]
    by_cases hj : j = G.current_player_idx
    · subst hj
      rw [List.getElem?_set_self hlt] at hpj
      have hpe : cur1 = p := Option.some.inj hpj
      rw [← hpe, hscore]
      exact h4 _ cur hcur
    · rw [List.getElem?_set_ne (fun h => hj h.symm)] at hpj
      exact h4 j p hpj

theorem invParts_end_game (g : ProspectorGame) (now : Int) (h : InvParts g) :
    InvParts (g.end_game now) := by
  obtain ⟨⟨h1, h2⟩, h3, h4⟩ := h
  have hf := end_game_frame g now
  refine ⟨⟨by rw [hf.2.1, hf.2.2.2.2.2.1]; exact h1,
    by rw [hf.2.1, hf.2.2.2.2.2.1]; exact h2⟩, ?_, ?_⟩
  · intro r c hr hc j hj
    rw [hf.2.2.2.2.2.2.2.1]
    have hca : (g.end_game now).cellAt r c = g.cellAt r c := by
      unfold ProspectorGame.cellAt
      rw [hf.2.1]
    rw [hca] at hj
    rw [hf.2.2.2.2.2.1] at hr hc
    exact h3 r c hr hc j hj
  · intro j p hpj
    have hm := congrArg (fun l => l[j]?) hf.2.2.2.2.2.2.2.2
    simp only [List.getElem?_map] at hm
    rw [hpj] at hm
    cases hq : g.players[j]? with
    | none =>
      rw [hq] at hm
      exact absurd hm (by simp)
    | some q =>
      rw [hq] at hm
      have hqs : p.score = q.score := by simpa using hm
      rw [hqs, (measures_congr hf.2.2.2.2.2.1 hf.2.1).1 j]
      exact h4 j q hq

theorem invParts_after_claim (G : ProspectorGame) (gNew : ProspectorGame)
    (cur cur1 : Player)
    (hcur : G.players[G.current_player_idx]? = some cur)
    (hscore : cur1.score = cur.score)
    (hInvG : InvParts G)
    (hgrid : gNew.grid_size = G.grid_size)
    (hcells : gNew.land_cells =
      (claim_lands G.check_claimed_land G.land_cells G.current_player_idx).1)
    (hplayers : gNew.players = (G.players.set G.current_player_idx cur1).set
      G.current_player_idx (cur1.add_score
        (claim_lands G.check_claimed_land G.land_cells G.current_player_idx).2)) :
    InvParts gNew := by
  obtain ⟨⟨h1, h2⟩, h3, h4⟩ := hInvG
  have hlt : G.current_player_idx < G.players.length := by
    by_contra hcon
    rw [List.getElem?_eq_none (by omega)] at hcur
    cases hcur
  have hCb : ∀ rc ∈ G.check_claimed_land, rc.1 < G.grid_size ∧ rc.2 < G.grid_size := by
    intro rc hrc
    have hm : (rc.1, rc.2) ∈ G.check_claimed_land := by rw [Prod.mk.eta]; exact hrc
    have := (mem_check_claimed_land G rc.1 rc.2).1 hm
    exact ⟨this.1, this.2.1⟩
  have hCp : ∀ rc ∈ G.check_claimed_land, rc.1 < G.grid_size ∧ rc.2 < G.grid_size ∧
      (G.cellAt rc.1 rc.2).owner = none := by
    intro rc hrc
    have hm : (rc.1, rc.2) ∈ G.check_claimed_land := by rw [Prod.mk.eta]; exact hrc
    have := (mem_check_claimed_land G rc.1 rc.2).1 hm
    exact ⟨this.1, this.2.1, this.2.2.1⟩
  have hspec := claim_lands_spec G.check_claimed_land G.land_cells
    G.current_player_idx G.grid_size h1 h2 hCb
  have hpt2 : ∀ r c, gNew.cellAt r c =
      (if (r, c) ∈ G.check_claimed_land
       then { G.cellAt r c with owner := some G.current_player_idx }
       else G.cellAt r c) := by
    intro r c
    have := hspec.2.1 r c
    rw [cellAt_eq_cellOf gNew r c, hcells]
    exact this
  have hpt : ∀ rc : Nat × Nat, gNew.cellAt rc.1 rc.2 =
      (if rc ∈ G.check_claimed_land
       then { G.cellAt rc.1 rc.2 with owner := some G.current_player_idx }
       else G.cellAt rc.1 rc.2) := by
    intro rc
    have := hpt2 rc.1 rc.2
    rwa [Prod.mk.eta] at this
  have hmeas := claim_measures G gNew G.check_claimed_land G.current_player_idx
    hgrid hpt hCp (check_claimed_land_nodup G)
  refine ⟨⟨by rw [hcells, hgrid]; exact hspec.1.1,
    by rw [hcells, hgrid]; exact hspec.1.2⟩, ?_, ?_⟩
  · intro r c hr hc j hj
    rw [hplayers, List.set_set, List.length_set]
    rw [hgrid] at hr hc
    rw [hpt2 r c] at hj
    by_cases hmem : (r, c) ∈ G.check_claimed_land
    · rw [if_pos hmem] at hj
      have : G.current_player_idx = j := Option.some.inj hj
      omega
    · rw [if_neg hmem] at hj
      exact h3 r c hr hc j hj
  · intro j p hpj
    rw [hplayers, List.set_set] at hpj
    by_cases hj : j = G.current_player_idx
    · subst hj
      rw [List.getElem?_set_self hlt] at hpj
      have hpe := (Option.some.inj hpj).symm
      rw [hpe]
      show cur1.score +
        (claim_lands G.check_claimed_land G.land_cells G.current_player_idx).2 = _
      rw [hscore, hspec.2.2, h4 _ cur hcur, hmeas.1]
      rfl
    · rw [List.getElem?_set_ne (fun h => hj h.symm)] at hpj
      rw [hmeas.2.1 j hj]
      exact h4 j p hpj

theorem after_place_inv (G : ProspectorGame) (now : Int) (pid : String) (row col : Int)
    (o : String) (cur : Player) (hcur : G.get_current_player = some cur)
    (hInv : InvParts G) : InvParts (after_place G now pid row col o cur).1 := by
  obtain ⟨hne, hlt, hget⟩ := get_current_player_eq_some hcur
  have hget' : G.players[G.current_player_idx]? = some cur := by
    rw [← List.get?_eq_getElem?]
    exact hget
  simp only [after_place, check_claimed_land_update]
  split
  · apply invParts_frame
      ((next_turn_frame _ now).2.2.2.2.2.2.2)
      ((next_turn_frame _ now).2.2.1)
      ((next_turn_frame _ now).2.2.2.1)
    exact invParts_set_current G cur (cur.update_activity now) _ hget' rfl hInv rfl rfl rfl
  · apply invParts_frame rfl rfl rfl
    split
    · apply invParts_end_game
      exact invParts_after_claim G _ cur (cur.update_activity now) hget' rfl hInv rfl rfl rfl
    · exact invParts_after_claim G _ cur (cur.update_activity now) hget' rfl hInv rfl rfl rfl

theorem add_player_grid (g : ProspectorGame) (now : Int) (p : Player) :
    (g.add_player now p).1.grid_size = g.grid_size ∧
    (g.add_player now p).1.land_cells = g.land_cells ∧
    ((g.add_player now p).1.players = g.players ∨
     (g.add_player now p).1.players = g.players ++ [p]) := by
  unfold ProspectorGame.add_player
  split
  · dsimp only
    split
    · exact ⟨rfl, rfl, Or.inr rfl⟩
    · exact ⟨rfl, rfl, Or.inr rfl⟩
  · exact ⟨rfl, rfl, Or.inl rfl⟩

theorem reachableNR_inv (g : ProspectorGame) (h : ReachableNR g) : InvParts g := by
  induction h with
  | init gs mp gid tmo sh =>
    refine ⟨⟨(distribute_dims gs sh).1, (distribute_dims gs sh).2⟩, ?_, ?_⟩
    · intro r c _ _ j hj
      rw [show (ProspectorGame.cellAt (ProspectorGame.init gs mp gid tmo sh) r c).owner
        = none from distribute_owner_none gs sh r c] at hj
      cases hj
    · intro j p hp
      exact absurd hp (by simp [ProspectorGame.init])
  | add now nm pid now2 hg ih =>
    rename_i G
    obtain ⟨hgrid, hcells, hps⟩ := add_player_grid G now (Player.make nm pid now2)
    rcases hps with hps | hps
    · exact invParts_frame hgrid hcells hps ih
    · obtain ⟨⟨h1, h2⟩, h3, h4⟩ := ih
      refine ⟨⟨by rw [hcells, hgrid]; exact h1, by rw [hcells, hgrid]; exact h2⟩, ?_, ?_⟩
      · intro r c hr hc j hj
        rw [hps, List.length_append]
        have hca : (G.add_player now (Player.make nm pid now2)).1.cellAt r c =
            G.cellAt r c := by
          unfold ProspectorGame.cellAt
          rw [hcells]
        rw [hca] at hj
        rw [hgrid] at hr hc
        have := h3 r c hr hc j hj
        simp only [List.length_cons, List.length_nil]
        omega
      · intro j p hp
        rw [hps] at hp
        by_cases hj : j < G.players.length
        · rw [List.getElem?_append_left hj] at hp
          rw [(measures_congr hgrid hcells).1 j]
          exact h4 j p hp
        · have hlen : j < G.players.length + 1 := by
            by_contra hcon
            rw [List.getElem?_eq_none (by simp; omega)] at hp
            cases hp
          have hjl : j = G.players.length := by omega
          subst hjl
          rw [List.getElem?_append_right (le_refl _), Nat.sub_self] at hp
          have hpe : Player.make nm pid now2 = p := by simpa using hp
          rw [← hpe]
          show (0 : Int) = _
          rw [(measures_congr hgrid hcells).1]
          refine (ownedValue_eq_zero G G.players.length ?_).symm
          intro r c hr hc hcon
          exact absurd (h3 r c hr hc _ hcon) (lt_irrefl _)
  | place now pid row col o hg ih =>
    rename_i G
    cases hok : (G.place_fence now pid row col o).2.1 with
    | false =>
      rcases place_fence_failure_cases G now pid row col o hok with heq | ⟨_, heq⟩
      · rw [heq]
        exact ih
      · rw [heq]
        exact invParts_frame ((next_turn_frame G now).2.2.2.2.2.2.2)
          ((next_turn_frame G now).2.2.1) ((next_turn_frame G now).2.2.2.1) ih
    | true =>
      obtain ⟨cur, hcp, _, _, _, hcase⟩ :=
        place_fence_success_cases G now pid row col o hok
      rcases hcase with ⟨_, _, _, heq⟩ | ⟨_, _, _, heq⟩
      · rw [heq]
        exact after_place_inv _ now pid row col o cur hcp
          (invParts_frame rfl rfl rfl ih)
      · rw [heq]
        exact after_place_inv _ now pid row col o cur hcp
          (invParts_frame rfl rfl rfl ih)
  | endgame now hg ih =>
    exact invParts_end_game _ now ih

/-- Counterexample for C6 as stated: the score invariant fails on a reachable
state. In the 1×1 example game, player "b" (index 1) claims the only cell and
the owner field stores index 1; removing player "a" then pops index 0, so "b"
slides to index 0 while keeping score 1, and no cell designates index 0 —
the player's score no longer equals the value of the cells designating them. -/
theorem score_invariant_counterexample : ¬ (∀ g, Reachable g → scoreInv g) := by
  intro hall
  have hr : Reachable exG7 :=
    Reachable.remove 0 "a"
      (Reachable.place 0 "b" 0 1 ORIENTATION_VERTICAL
        (Reachable.place 0 "a" 0 0 ORIENTATION_VERTICAL
          (Reachable.place 0 "b" 1 0 ORIENTATION_HORIZONTAL
            (Reachable.place 0 "a" 0 0 ORIENTATION_HORIZONTAL
              (Reachable.add 0 "Bob" "b" 0
                (Reachable.add 0 "Alice" "a" 0
                  (Reachable.init 1 2 "G" 0 [])))))))
  have hbad : ¬ scoreInv exG7 := by
    unfold scoreInv
    decide
  exact hbad (hall exG7 hr)

/-- C6 amended: in every state reachable without player removal (construction,
joins of fresh players, fence placements, game end), each player's score equals
the summed value of the cells whose owner field designates that player's index,
and the sum of all scores plus the value of all unowned cells equals the grid's
total land value. Removing a player breaks the invariant, because the roster
shifts down while the owner fields keep the old indices and the departing
player's score leaves the sum. -/
theorem score_invariant (g : ProspectorGame) (h : ReachableNR g) : scoreInv g := by
  obtain ⟨⟨hd1, hd2⟩, hown, hsc⟩ := reachableNR_inv g h
  constructor
  · intro ip hip
    exact hsc ip.1 ip.2 (List.mem_enum_iff_getElem?.mp hip)
  · have hpart := value_partition g g.players.length hown
    have hscore : g.scoreSum = ∑ i ∈ Finset.range g.players.length, g.ownedValue i := by
      unfold ProspectorGame.scoreSum
      rw [scoreSum_eq_range]
      apply Finset.sum_congr rfl
      intro i hi
      rw [Finset.mem_range] at hi
      rw [List.getD_eq_getElem _ _ hi]
      exact hsc i _ (List.getElem?_eq_getElem hi)
    rw [hscore]
    exact hpart

/-- Witness for the amended C6 at the finished example game, reached without
any removal: "b" holds the single cell and score 1. -/
theorem score_invariant_witness : scoreInv exG6 :=
  score_invariant exG6
    (ReachableNR.place 0 "b" 0 1 ORIENTATION_VERTICAL
      (ReachableNR.place 0 "a" 0 0 ORIENTATION_VERTICAL
        (ReachableNR.place 0 "b" 1 0 ORIENTATION_HORIZONTAL
          (ReachableNR.place 0 "a" 0 0 ORIENTATION_HORIZONTAL
            (ReachableNR.add 0 "Bob" "b" 0
              (ReachableNR.add 0 "Alice" "a" 0
                (ReachableNR.init 1 2 "G" 0 [])))))))
